import Mathlib

/-!
# compare-file: the browser front end (`frontend/src/App.jsx`)

A shallow embedding of the upload form's handlers, of the `FolderTree`
component and of the summary section of `App`, followed by the properties
proved about them.  JavaScript values whose shape matters are kept dynamic
(`JVal`); the report rows the component logic iterates over are records.
-/

namespace CompareFile

/-! ## JavaScript values -/

/-- A JSON value as produced by `response.json()`, plus `undefined`.
Numbers are kept as integers. -/
inductive JVal where
  | undefined
  | null
  | bool (b : Bool)
  | num (n : Int)
  | str (s : String)
  | arr (xs : List JVal)
  | obj (fields : List (String × JVal))

/-- JavaScript truthiness: `undefined`, `null`, `false`, `0` and `''` are
falsy, everything else (every array and object included) is truthy. -/
def JVal.truthy : JVal → Bool
  | .undefined => false
  | .null => false
  | .bool b => b
  | .num n => n != 0
  | .str s => s != ""
  | .arr _ => true
  | .obj _ => true

/-- Message of the `TypeError` raised when a property is read from
`undefined` or `null`. -/
def cannotReadMessage (base key : String) : String :=
  "Cannot read properties of " ++ base ++ " (reading '" ++ key ++ "')"

/-- Property read `v.key` (`v[key]`) on a JSON value: throws on `undefined`
and `null`, yields the own property of an object (`undefined` when there is
none), and `undefined` on the other values. -/
def JVal.get (v : JVal) (key : String) : Except String JVal :=
  match v with
  | .undefined => .error (cannotReadMessage "undefined" key)
  | .null => .error (cannotReadMessage "null" key)
  | .obj fields =>
    match fields.lookup key with
    | some x => .ok x
    | none => .ok .undefined
  | _ => .ok .undefined

/-- `s.endsWith(suffix)`. -/
def endsWith (s suffix : String) : Bool :=
  suffix.data.isSuffixOf s.data

/-- ASCII lower-casing, a concrete stand-in for `String.prototype.toLowerCase`
used when evaluating the handlers on examples; the handlers themselves take
the lower-casing function as a parameter. -/
def asciiLower (s : String) : String :=
  ⟨s.data.map Char.toLower⟩

/-! ## base64 -/

/-- The base64 alphabet of RFC 4648, table 1. -/
def base64Alphabet : List Char :=
  "ABCDEFGHIJKLMNOPQRSTUVWXYZabcdefghijklmnopqrstuvwxyz0123456789+/".data

/-- Character of a 6-bit value. -/
def sextetChar (n : Nat) : Char :=
  base64Alphabet.getD n 'A'

/-- Value of a base64 character, `none` outside the alphabet. -/
def charSextet (c : Char) : Option Nat :=
  let i := base64Alphabet.indexOf c
  if i < 64 then some i else none

/-- Standard base64 encoding (RFC 4648 section 4, with `=` padding) of a
sequence of bytes. -/
def base64Encode : List Nat → List Char
  | [] => []
  | [a] => [sextetChar (a / 4), sextetChar (a % 4 * 16), '=', '=']
  | [a, b] =>
    [sextetChar (a / 4), sextetChar (a % 4 * 16 + b / 16), sextetChar (b % 16 * 4), '=']
  | a :: b :: c :: rest =>
    sextetChar (a / 4) :: sextetChar (a % 4 * 16 + b / 16) ::
      sextetChar (b % 16 * 4 + c / 64) :: sextetChar (c % 64) :: base64Encode rest

/-- ASCII whitespace: TAB, LF, FF, CR and SPACE. -/
def isAsciiWhitespace (c : Char) : Bool :=
  c == '\t' || c == '\n' || c == '\x0c' || c == '\r' || c == ' '

/-- Step 2 of forgiving-base64 decode: when the length is a multiple of four,
drop one or two trailing `=`. -/
def stripPadding (l : List Char) : List Char :=
  if l.length % 4 = 0 then
    match l.reverse with
    | '=' :: '=' :: r => r.reverse
    | '=' :: r => r.reverse
    | _ => l
  else l

/-- Values of the characters of a string, `none` as soon as one character is
outside the base64 alphabet. -/
def sextetsOf : List Char → Option (List Nat)
  | [] => some []
  | c :: cs =>
    match charSextet c, sextetsOf cs with
    | some n, some ns => some (n :: ns)
    | _, _ => none

/-- The bit buffer of forgiving-base64 decode: every four 6-bit values give
three bytes; two left-over values give one byte (four bits discarded), three
give two bytes (two bits discarded). -/
def decodeSextets : List Nat → List Nat
  | a :: b :: c :: d :: rest =>
    let n := ((a * 64 + b) * 64 + c) * 64 + d
    n / 65536 :: n / 256 % 256 :: n % 256 :: decodeSextets rest
  | [a, b, c] =>
    let n := (a * 64 + b) * 64 + c
    [n / 1024, n / 4 % 256]
  | [a, b] => [(a * 64 + b) / 16]
  | _ => []

/-- Message of the `InvalidCharacterError` raised by `atob`. -/
def invalidCharacterMessage : String :=
  "The string to be decoded is not correctly encoded."

/-- The platform function `atob` (forgiving-base64 decode of the HTML
standard): the binary string is returned as the list of its character
codes. -/
def atob (data : List Char) : Except String (List Nat) :=
  let stripped := stripPadding (data.filter fun c => !isAsciiWhitespace c)
  if stripped.length % 4 = 1 then .error invalidCharacterMessage
  else
    match sextetsOf stripped with
    | none => .error invalidCharacterMessage
    | some ns => .ok (decodeSextets ns)

/-- `binaryString.charCodeAt(i)` for an index in range (`0` stands for the
`NaN` of an index out of range, which a `Uint8Array` stores as `0`). -/
def charCodeAt (binaryString : List Nat) (i : Nat) : Nat :=
  binaryString.getD i 0

/-- The loop `for (let i = 0; i < binaryString.length; i++)
bytes[i] = binaryString.charCodeAt(i)`; the first argument counts the
iterations still to run, and a `Uint8Array` element keeps its value modulo
256. -/
def copyLoop (binaryString : List Nat) : Nat → Nat → List Nat → List Nat
  | 0, _, bytes => bytes
  | n + 1, i, bytes =>
    copyLoop binaryString n (i + 1) (bytes.set i (charCodeAt binaryString i % 256))

/-- The byte array built from the binary string: `new Uint8Array(length)`
(zero-filled) followed by the copy loop. -/
def toUint8Array (binaryString : List Nat) : List Nat :=
  copyLoop binaryString binaryString.length 0 (List.replicate binaryString.length 0)

/-! ## The report consumed by the front end -/

/-- A row of `zipN_stats.files`; `folder` and `kept` may be absent. -/
structure FileRow where
  username : String
  folder : Option String
  filename : String
  status : String
  kept : Option Bool
  deriving DecidableEq, Repr

/-- The object `zip1_stats` / `zip2_stats`. -/
structure ArchiveStats where
  total_files : Nat
  unique_files : Nat
  duplicate_files : Nat
  files : List FileRow
  deriving DecidableEq, Repr

/-- A row of `final_merged.files`. -/
structure MergedFile where
  username : String
  source : String
  folder : String
  filename : String
  deriving DecidableEq, Repr

/-- The object `final_merged`. -/
structure MergedArchive where
  total_files : Nat
  files : List MergedFile
  deriving DecidableEq, Repr

/-- The object `summary_stats`. -/
structure SummaryStats where
  total_duplicates : Nat
  total_kept : Nat
  deriving DecidableEq, Repr

/-- An element of `duplicate_pairs`: a JSON object with a string `username`
and further own properties, which the pairs table reads dynamically. -/
structure DuplicatePair where
  username : String
  props : List (String × JVal)

/-- The object `data.summary`. -/
structure Summary where
  zip1_stats : ArchiveStats
  zip2_stats : ArchiveStats
  duplicate_pairs : List DuplicatePair
  final_merged : MergedArchive
  summary_stats : SummaryStats

/-! ## The upload form -/

/-- A `File` picked in a file input; only its name is inspected. -/
structure UploadFile where
  name : String
  deriving DecidableEq, Repr

/-- The React state of `App`.  `error` holds whatever was passed to
`setError`, which for an error response is the body's `detail`. -/
structure AppState where
  file1 : Option UploadFile
  file2 : Option UploadFile
  error : JVal
  success : String
  loading : Bool
  summary : Option Summary

/-- The initial state of `App`. -/
def AppState.initial : AppState :=
  { file1 := none, file2 := none, error := .str "", success := "", loading := false,
    summary := none }

/-- A call of `fetch`: the URL, the method and the two form-data parts. -/
structure Request where
  url : String
  method : String
  file1 : UploadFile
  file2 : UploadFile
  deriving DecidableEq, Repr

/-- The body of a successful response, in the shape of the wire contract. -/
structure SuccessData where
  zip_file : String
  filename : Option String
  summary : Summary

/-- What `fetch` followed by `response.json()` yields: a rejected `fetch`
(with the error's message), a response with `ok` false (its status text and
its body, `none` when the body is not JSON), or a response with `ok` true
(its body, or the message of the error `response.json()` rejects with). -/
inductive FetchResult where
  | rejected (message : String)
  | failure (statusText : String) (body : Option JVal)
  | success (data : Except String SuccessData)

/-- The file handed to the browser by the programmatic click on the anchor. -/
structure Download where
  bytes : List Nat
  type : String
  filename : String
  deriving DecidableEq, Repr

/-- Outcome of one run of `handleSubmit`: the state after its last `set...`
call, the requests sent and the downloads triggered. -/
structure SubmitResult where
  state : AppState
  requests : List Request
  downloads : List Download

/-- The handler `handleFile1Change`; `chosen` is `e.target.files[0]`. -/
def handleFile1Change (toLowerCase : String → String) (chosen : Option UploadFile)
    (s : AppState) : AppState :=
  match chosen with
  | some file =>
    if !endsWith (toLowerCase file.name) ".zip" then
      { s with error := .str "File 1 must be a ZIP file", file1 := none }
    else
      { s with file1 := some file, error := .str "" }
  | none => s

/-- The handler `handleFile2Change`. -/
def handleFile2Change (toLowerCase : String → String) (chosen : Option UploadFile)
    (s : AppState) : AppState :=
  match chosen with
  | some file =>
    if !endsWith (toLowerCase file.name) ".zip" then
      { s with error := .str "File 2 must be a ZIP file", file2 := none }
    else
      { s with file2 := some file, error := .str "" }
  | none => s

/-- The text of `setSuccess` on the success path. -/
def successMessage (summary : Summary) : String :=
  "Files processed successfully! Found " ++ toString summary.zip1_stats.total_files ++
    " files in ZIP 1, " ++ toString summary.zip2_stats.total_files ++ " files in ZIP 2. " ++
    toString summary.summary_stats.total_duplicates ++
    " duplicates detected. Final merged ZIP contains " ++
    toString summary.summary_stats.total_kept ++ " files."

/-- The `catch (err)` block of `handleSubmit`. -/
def submitCatch (s : AppState) (message : String) : AppState :=
  { s with error := .str ("Error: " ++ message), loading := false }

/-- The handler `handleSubmit`, run to completion against `fetch`. -/
def handleSubmit (toLowerCase : String → String) (fetch : Request → FetchResult)
    (s : AppState) : SubmitResult :=
  let s0 : AppState := { s with error := .str "", success := "", summary := none, loading := true }
  match s.file1, s.file2 with
  | some file1, some file2 =>
    if !endsWith (toLowerCase file1.name) ".zip" || !endsWith (toLowerCase file2.name) ".zip" then
      ⟨{ s0 with error := .str "Both files must be ZIP files", loading := false }, [], []⟩
    else
      let request : Request := ⟨"/api/compare-zips", "POST", file1, file2⟩
      match fetch request with
      | .rejected message => ⟨submitCatch s0 message, [request], []⟩
      | .failure statusText body =>
        let errorData : JVal :=
          match body with
          | some v => v
          | none => .obj [("detail", .str "Unknown error occurred")]
        match errorData.get "detail" with
        | .error message => ⟨submitCatch s0 message, [request], []⟩
        | .ok detail =>
          let shown := if detail.truthy then detail else .str ("Error: " ++ statusText)
          ⟨{ s0 with error := shown, loading := false }, [request], []⟩
      | .success (.error message) => ⟨submitCatch s0 message, [request], []⟩
      | .success (.ok data) =>
        match atob data.zip_file.data with
        | .error message => ⟨submitCatch s0 message, [request], []⟩
        | .ok binaryString =>
          let bytes := toUint8Array binaryString
          let filename :=
            match data.filename with
            | some name => if name != "" then name else "result.zip"
            | none => "result.zip"
          ⟨{ s0 with summary := some data.summary, success := successMessage data.summary,
                     loading := false },
            [request], [⟨bytes, "application/zip", filename⟩]⟩
  | _, _ => ⟨{ s0 with error := .str "Please select both ZIP files", loading := false }, [], []⟩

/-- Both slots hold a file whose lower-cased name ends with `.zip`. -/
def bothZip (toLowerCase : String → String) (s : AppState) : Prop :=
  ∃ f1 f2, s.file1 = some f1 ∧ s.file2 = some f2 ∧
    endsWith (toLowerCase f1.name) ".zip" = true ∧ endsWith (toLowerCase f2.name) ".zip" = true

/-! ## FolderTree -/

/-- Names of the properties an object literal inherits from
`Object.prototype`; each of them reads as a truthy value that has no `push`
method. -/
def objectPrototypeKeys : List String :=
  ["constructor", "__defineGetter__", "__defineSetter__", "hasOwnProperty",
   "__lookupGetter__", "__lookupSetter__", "isPrototypeOf", "propertyIsEnumerable",
   "toString", "valueOf", "__proto__", "toLocaleString"]

/-- The own properties of the object `folderStructure`, in creation order. -/
abbrev FolderStructure := List (String × List FileRow)

/-- The key `file.folder || 'root'`. -/
def folderOf (file : FileRow) : String :=
  match file.folder with
  | some f => if f != "" then f else "root"
  | none => "root"

/-- The call `folderStructure[folder].push(file)` on an own property. -/
def pushInto (folder : String) (file : FileRow) : FolderStructure → FolderStructure
  | [] => []
  | (k, rows) :: rest =>
    if k = folder then (k, rows ++ [file]) :: rest
    else (k, rows) :: pushInto folder file rest

/-- Message of the `TypeError` raised by calling the missing `push`. -/
def pushNotFunctionMessage : String :=
  "folderStructure[folder].push is not a function"

/-- One iteration of `files.forEach`: an own property is an array (truthy)
and receives the file; an inherited property is truthy as well, so no array
is created and the call of `push` throws; otherwise the array is created
and receives the file. -/
def addFile (fs : FolderStructure) (file : FileRow) : Except String FolderStructure :=
  let folder := folderOf file
  if (fs.lookup folder).isSome then .ok (pushInto folder file fs)
  else if folder ∈ objectPrototypeKeys then .error pushNotFunctionMessage
  else .ok (fs ++ [(folder, [file])])

/-- The loop `files.forEach(...)` continued from the structure `fs`. -/
def buildFrom (fs : FolderStructure) : List FileRow → Except String FolderStructure
  | [] => .ok fs
  | file :: rest =>
    match addFile fs file with
    | .error e => .error e
    | .ok fs1 => buildFrom fs1 rest

/-- The object `folderStructure` built by `FolderTree`. -/
def buildFolderStructure (files : List FileRow) : Except String FolderStructure :=
  buildFrom [] files

/-- A canonical non-negative integer string: decimal digits with no leading
zero, or `0` itself. -/
def isCanonicalNat (s : String) : Bool :=
  match s.data with
  | [] => false
  | [c] => c.isDigit
  | c :: cs => c.isDigit && c != '0' && cs.all Char.isDigit

/-- Value of a string of decimal digits. -/
def digitsValue (s : String) : Nat :=
  s.data.foldl (fun n c => 10 * n + (c.toNat - '0'.toNat)) 0

/-- The array index a property key denotes, if any: a canonical numeric
string below `2 ^ 32 - 1`. -/
def arrayIndex? (s : String) : Option Nat :=
  if isCanonicalNat s && digitsValue s < 4294967295 then some (digitsValue s) else none

/-- The order of `Object.keys` / `Object.entries`: array-index keys in
ascending numeric order, then the other keys in creation order. -/
def objectEntries (fs : FolderStructure) : List (String × List FileRow) :=
  let indexed := fs.filterMap fun e => (arrayIndex? e.1).map fun i => (i, e)
  (indexed.insertionSort fun a b => a.1 ≤ b.1).map Prod.snd ++
    fs.filter fun e => (arrayIndex? e.1).isNone

/-- The state `expandedFolders`: own properties of the object. -/
abbrev ExpandedFolders := List (String × Bool)

/-- The object `initialExpandedState`: every key of `folderStructure` set to
`true`. -/
def initialExpandedState (fs : FolderStructure) : ExpandedFolders :=
  (objectEntries fs).map fun e => (e.1, true)

/-- The closure `isKept`: `keptUsernames.includes(username)`. -/
def isKept (keptUsernames : List String) (username : String) : Bool :=
  keptUsernames.contains username

/-- The closure `isRemoved`:
`duplicateUsernames.includes(username) && !isKept(username)`. -/
def isRemoved (duplicateUsernames keptUsernames : List String) (username : String) : Bool :=
  duplicateUsernames.contains username && !isKept keptUsernames username

/-- What a file line of the tree displays: the file name, the user name, the
two badges and the classes chosen from them. -/
structure FileView where
  filename : String
  username : String
  kept : Bool
  removed : Bool
  rowClass : String
  nameClass : String
  deriving DecidableEq, Repr

/-- The element rendered for one file of a folder. -/
def fileView (duplicateUsernames keptUsernames : List String) (file : FileRow) : FileView :=
  let kept := isKept keptUsernames file.username
  let removed := isRemoved duplicateUsernames keptUsernames file.username
  { filename := file.filename
    username := file.username
    kept := kept
    removed := removed
    rowClass :=
      if removed then "bg-red-50 opacity-75" else if kept then "bg-green-50"
      else "hover:bg-gray-50"
    nameClass := if removed then "line-through text-red-600" else "text-gray-700" }

/-- What a folder of the tree displays: its header (name, counts, open or
closed) and, when expanded, its file lines. -/
structure FolderView where
  folder : String
  isExpanded : Bool
  totalCount : Nat
  keptCount : Nat
  removedCount : Nat
  files : List FileView
  deriving DecidableEq, Repr

/-- The element rendered for one entry of `folderStructure`. -/
def folderView (duplicateUsernames keptUsernames : List String)
    (expandedFolders : ExpandedFolders) (entry : String × List FileRow) : FolderView :=
  let isExpanded := (expandedFolders.lookup entry.1).getD true
  { folder := entry.1
    isExpanded := isExpanded
    totalCount := entry.2.length
    keptCount := (entry.2.filter fun f => isKept keptUsernames f.username).length
    removedCount :=
      (entry.2.filter fun f => isRemoved duplicateUsernames keptUsernames f.username).length
    files := if isExpanded then entry.2.map (fileView duplicateUsernames keptUsernames) else [] }

/-- The component `FolderTree` rendered with the state `expandedFolders`
(`none` on the first render, where the state is `initialExpandedState`). -/
def folderTree (files : List FileRow) (duplicateUsernames keptUsernames : List String)
    (expandedFolders : Option ExpandedFolders) : Except String (List FolderView) :=
  match buildFolderStructure files with
  | .error e => .error e
  | .ok fs =>
    let expanded := expandedFolders.getD (initialExpandedState fs)
    .ok ((objectEntries fs).map (folderView duplicateUsernames keptUsernames expanded))

/-! ## The summary section of `App` -/

/-- The list `keptUsernames`. -/
def keptUsernames (summary : Summary) : List String :=
  summary.final_merged.files.map fun f => f.username

/-- The list `duplicateUsernames`. -/
def duplicateUsernames (summary : Summary) : List String :=
  summary.duplicate_pairs.map fun p => p.username

/-- The list `zip1RemovedUsernames` (computed, not used by the rendering). -/
def zip1RemovedUsernames (summary : Summary) : List String :=
  (summary.zip1_stats.files.filter fun f =>
    f.status == "duplicate" && !(keptUsernames summary).contains f.username).map
    fun f => f.username

/-- Truthiness of a row's `kept` flag (absent is falsy). -/
def keptFlag (file : FileRow) : Bool :=
  file.kept.getD false

/-- The list `zip2RemovedUsernames`. -/
def zip2RemovedUsernames (summary : Summary) : List String :=
  (summary.zip2_stats.files.filter fun f => !keptFlag f).map fun f => f.username

/-- The `duplicateUsernames` prop of the ZIP File 1 tree. -/
def zip1TreeDuplicates (summary : Summary) : List String :=
  (duplicateUsernames summary).filter fun u => (keptUsernames summary).contains u

/-- The ZIP File 1 tree. -/
def zip1Tree (summary : Summary) (expandedFolders : Option ExpandedFolders) :
    Except String (List FolderView) :=
  folderTree summary.zip1_stats.files (zip1TreeDuplicates summary) (keptUsernames summary)
    expandedFolders

/-- The ZIP File 2 tree. -/
def zip2Tree (summary : Summary) (expandedFolders : Option ExpandedFolders) :
    Except String (List FolderView) :=
  folderTree summary.zip2_stats.files (zip2RemovedUsernames summary) (keptUsernames summary)
    expandedFolders

/-- A row of a details table: the three text cells, the status label and the
action label. -/
structure DetailRow where
  username : String
  folder : String
  filename : String
  status : String
  action : String
  deriving DecidableEq, Repr

/-- The status label of a details row. -/
def statusLabel (file : FileRow) : String :=
  if file.status == "duplicate" then "Duplicate" else "Unique"

/-- A row of the ZIP File 1 details table; its action cell is the constant
`Kept`. -/
def zip1DetailRow (file : FileRow) : DetailRow :=
  { username := file.username, folder := file.folder.getD "", filename := file.filename,
    status := statusLabel file, action := "Kept" }

/-- A row of the ZIP File 2 details table. -/
def zip2DetailRow (file : FileRow) : DetailRow :=
  { username := file.username, folder := file.folder.getD "", filename := file.filename,
    status := statusLabel file, action := if keptFlag file then "Kept" else "Removed" }

/-- The ZIP File 1 details table. -/
def zip1Table (summary : Summary) : List DetailRow :=
  summary.zip1_stats.files.map zip1DetailRow

/-- The ZIP File 2 details table. -/
def zip2Table (summary : Summary) : List DetailRow :=
  summary.zip2_stats.files.map zip2DetailRow

/-- Message of the error React raises for an object used as a child. -/
def invalidChildMessage : String :=
  "Objects are not valid as a React child"

/-- The text React renders for a child expression: strings and numbers give
their text, `undefined`, `null` and booleans give nothing, an array gives
its elements in turn, and an object is refused. -/
def renderChild : JVal → Except String String
  | .str s => .ok s
  | .num n => .ok (toString n)
  | .arr xs => renderChildren xs
  | .obj _ => .error invalidChildMessage
  | _ => .ok ""
where
  /-- The children of an array, one after the other. -/
  renderChildren : List JVal → Except String String
  | [] => .ok ""
  | x :: xs =>
    match renderChild x, renderChildren xs with
    | .ok a, .ok b => .ok (a ++ b)
    | .error e, _ => .error e
    | _, .error e => .error e

/-- The property read `pair.key` on an element of `duplicate_pairs`. -/
def DuplicatePair.prop (pair : DuplicatePair) (key : String) : JVal :=
  if key = "username" then .str pair.username
  else
    match pair.props.lookup key with
    | some v => v
    | none => .undefined

/-- The cells of a row of the Duplicate Detection table. -/
structure PairRow where
  username : String
  zip1Folder : String
  zip1Filename : String
  zip2Folder : String
  zip2Filename : String
  keptFrom : String
  removedFrom : String
  deriving DecidableEq, Repr

/-- The row rendered for one element of `duplicate_pairs`: the expressions
`pair.username`, `pair.zip1_file.folder`, `pair.zip1_file.filename`,
`pair.zip2_file.folder`, `pair.zip2_file.filename`, `pair.kept_from` and
`pair.removed_from`, evaluated in this order and then rendered. -/
def pairRow (pair : DuplicatePair) : Except String PairRow := do
  let username := pair.prop "username"
  let zip1Folder ← (pair.prop "zip1_file").get "folder"
  let zip1Filename ← (pair.prop "zip1_file").get "filename"
  let zip2Folder ← (pair.prop "zip2_file").get "folder"
  let zip2Filename ← (pair.prop "zip2_file").get "filename"
  let keptFrom := pair.prop "kept_from"
  let removedFrom := pair.prop "removed_from"
  return {
    username := ← renderChild username
    zip1Folder := ← renderChild zip1Folder
    zip1Filename := ← renderChild zip1Filename
    zip2Folder := ← renderChild zip2Folder
    zip2Filename := ← renderChild zip2Filename
    keptFrom := ← renderChild keptFrom
    removedFrom := ← renderChild removedFrom }

/-- The child expressions of a row of the Duplicate Detection table, as
`App` evaluates them while it builds its elements. -/
structure PairCells where
  username : JVal
  zip1Folder : JVal
  zip1Filename : JVal
  zip2Folder : JVal
  zip2Filename : JVal
  keptFrom : JVal
  removedFrom : JVal

/-- The property reads of one row of the Duplicate Detection table, in
source order; a read on a missing `zip1_file` or `zip2_file` throws. -/
def pairReads (pair : DuplicatePair) : Except String PairCells := do
  let username := pair.prop "username"
  let zip1Folder ← (pair.prop "zip1_file").get "folder"
  let zip1Filename ← (pair.prop "zip1_file").get "filename"
  let zip2Folder ← (pair.prop "zip2_file").get "folder"
  let zip2Filename ← (pair.prop "zip2_file").get "filename"
  let keptFrom := pair.prop "kept_from"
  let removedFrom := pair.prop "removed_from"
  return { username := username, zip1Folder := zip1Folder, zip1Filename := zip1Filename,
           zip2Folder := zip2Folder, zip2Filename := zip2Filename, keptFrom := keptFrom,
           removedFrom := removedFrom }

/-- The text React renders for the children of one row. -/
def renderPairCells (cells : PairCells) : Except String PairRow := do
  return {
    username := ← renderChild cells.username
    zip1Folder := ← renderChild cells.zip1Folder
    zip1Filename := ← renderChild cells.zip1Filename
    zip2Folder := ← renderChild cells.zip2Folder
    zip2Filename := ← renderChild cells.zip2Filename
    keptFrom := ← renderChild cells.keptFrom
    removedFrom := ← renderChild cells.removedFrom }

/-- The child expressions of the Duplicate Detection table, read for every
pair while `App` builds its elements; `none` when the table is not rendered
(no pair). -/
def pairsReads (summary : Summary) : Except String (Option (List PairCells)) :=
  if summary.duplicate_pairs.length > 0 then
    (summary.duplicate_pairs.mapM pairReads).map some
  else .ok none

/-- The rows React renders from the child expressions of the table. -/
def renderPairs : Option (List PairCells) → Except String (Option (List PairRow))
  | some cells => (cells.mapM renderPairCells).map some
  | none => .ok none

/-- The rows of the Duplicate Detection table, `none` when the table is not
rendered (no pair): the properties of every pair are read first, the
children are rendered afterwards. -/
def pairsTable (summary : Summary) : Except String (Option (List PairRow)) :=
  match pairsReads summary with
  | .error e => .error e
  | .ok cells => renderPairs cells

/-- The JSON object of a `FileEntry` of the documented data model. -/
def fileEntryObj (username folder filename origin raw_path : String) : JVal :=
  .obj [("username", .str username), ("folder", .str folder), ("filename", .str filename),
        ("origin", .str origin), ("raw_path", .str raw_path)]

/-- A duplicate pair of the documented shape
`{ username, a_file, b_file, kept_from, removed_from }`. -/
def documentedPair (username : String) (a_file b_file : JVal)
    (kept_from removed_from : String) : DuplicatePair :=
  { username := username
    props := [("a_file", a_file), ("b_file", b_file), ("kept_from", .str kept_from),
              ("removed_from", .str removed_from)] }

/-- A duplicate pair of the shape the table reads:
`{ username, zip1_file, zip2_file, kept_from, removed_from }`. -/
def consumedPair (username : String) (zip1_file zip2_file : JVal)
    (kept_from removed_from : String) : DuplicatePair :=
  { username := username
    props := [("zip1_file", zip1_file), ("zip2_file", zip2_file),
              ("kept_from", .str kept_from), ("removed_from", .str removed_from)] }

/-- What the summary section displays: the two trees, the two details
tables, the Duplicate Detection table and the rows of the Final Merged File
List. -/
structure SummaryView where
  zip1Tree : List FolderView
  zip2Tree : List FolderView
  zip1Table : List DetailRow
  zip2Table : List DetailRow
  pairs : Option (List PairRow)
  finalMerged : List MergedFile
  deriving DecidableEq, Repr

/-- The summary section of `App` as one render: `App` builds its elements,
reading every property of every pair (a failing read throws there); React
then renders the ZIP File 1 tree, the ZIP File 2 tree and the children of
the tables.  An error at any step leaves nothing displayed. -/
def summarySection (summary : Summary) (expanded1 expanded2 : Option ExpandedFolders) :
    Except String SummaryView :=
  match pairsReads summary with
  | .error e => .error e
  | .ok cells =>
    match zip1Tree summary expanded1 with
    | .error e => .error e
    | .ok tree1 =>
      match zip2Tree summary expanded2 with
      | .error e => .error e
      | .ok tree2 =>
        match renderPairs cells with
        | .error e => .error e
        | .ok pairs =>
          .ok { zip1Tree := tree1, zip2Tree := tree2, zip1Table := zip1Table summary,
                zip2Table := zip2Table summary, pairs := pairs,
                finalMerged := summary.final_merged.files }

/-- The report of Scenario 1 as the front end reads it (pairs with
`zip1_file` and `zip2_file`): archive A holds `alice_001.pdf` and
`bob_002.pdf`, archive B holds `alice(12) Alice Smith/alice_final.pdf`, and
B's copy of alice is kept. -/
def scenario1Summary : Summary :=
  { zip1_stats :=
      { total_files := 2, unique_files := 1, duplicate_files := 1
        files := [⟨"alice", some "root", "alice_001.pdf", "duplicate", none⟩,
                  ⟨"bob", some "root", "bob_002.pdf", "unique", none⟩] }
    zip2_stats :=
      { total_files := 1, unique_files := 0, duplicate_files := 1
        files := [⟨"alice", some "alice(12) Alice Smith", "alice_final.pdf", "duplicate",
                   some true⟩] }
    duplicate_pairs :=
      [consumedPair "alice"
        (fileEntryObj "alice" "root" "alice_001.pdf" "A" "alice_001.pdf")
        (fileEntryObj "alice" "alice(12) Alice Smith" "alice_final.pdf" "B"
          "alice(12) Alice Smith/alice_final.pdf")
        "B" "A"]
    final_merged :=
      { total_files := 2
        files := [⟨"bob", "A", "root", "bob_002.pdf"⟩,
                  ⟨"alice", "B", "alice(12) Alice Smith", "alice_final.pdf"⟩] }
    summary_stats := { total_duplicates := 1, total_kept := 2 } }

/-! ## The grouping `FolderTree` is meant to compute -/

/-- The distinct elements of a list, in order of first occurrence. -/
def firstOccurrences : List String → List String
  | [] => []
  | x :: xs => x :: (firstOccurrences xs).filter fun y => y != x

/-- The rows grouped by folder key: one group per distinct key, in order of
first occurrence, each holding the rows of that key in input order. -/
def groupsOf (files : List FileRow) : FolderStructure :=
  (firstOccurrences (files.map folderOf)).map fun k =>
    (k, files.filter fun r => folderOf r == k)

/-- Six rows used to evaluate the folder structure: an absent folder, two
numeric folder names, the literal `root`, a named folder and an empty
folder. -/
def sampleRows : List FileRow :=
  [⟨"ann", none, "ann_1.pdf", "unique", none⟩,
   ⟨"ben", some "10", "ben_2.pdf", "unique", none⟩,
   ⟨"cat", some "root", "cat_3.pdf", "unique", none⟩,
   ⟨"dan", some "2", "dan_4.pdf", "unique", none⟩,
   ⟨"eve", some "docs", "eve_5.pdf", "unique", none⟩,
   ⟨"fay", some "", "fay_6.pdf", "unique", none⟩]

/-- The folder structure of `sampleRows`, own properties in creation
order. -/
def sampleStructure : FolderStructure :=
  [("root", [⟨"ann", none, "ann_1.pdf", "unique", none⟩,
             ⟨"cat", some "root", "cat_3.pdf", "unique", none⟩,
             ⟨"fay", some "", "fay_6.pdf", "unique", none⟩]),
   ("10", [⟨"ben", some "10", "ben_2.pdf", "unique", none⟩]),
   ("2", [⟨"dan", some "2", "dan_4.pdf", "unique", none⟩]),
   ("docs", [⟨"eve", some "docs", "eve_5.pdf", "unique", none⟩])]

/-! ## The structure of a base64 encoding -/

/-- The 6-bit values of the encoding of a byte sequence, without padding. -/
def sextetValues : List Nat → List Nat
  | [] => []
  | [a] => [a / 4, a % 4 * 16]
  | [a, b] => [a / 4, a % 4 * 16 + b / 16, b % 16 * 4]
  | a :: b :: c :: rest =>
    a / 4 :: (a % 4 * 16 + b / 16) :: (b % 16 * 4 + c / 64) :: c % 64 :: sextetValues rest

/-- The `=` padding that ends the encoding of a byte sequence. -/
def padding : List Nat → List Char
  | [] => []
  | [_] => ['=', '=']
  | [_, _] => ['=']
  | _ :: _ :: _ :: rest => padding rest

/-! ## The comparison engine

The engine runs on the server and is not part of the front-end source; it
is modelled here from its specification.  An archive is given by the paths
of its members (`none` when the container cannot be read). -/

namespace Engine

/-- Modelled from the spec: the origin tag of an archive (section 3,
`origin: A|B`); the engine itself is not in the source tree. -/
inductive Origin where
  | A
  | B
  deriving DecidableEq, Repr

/-- Modelled from the spec: the `FileEntry` of section 3; `username` is
`none` when extraction failed. -/
structure FileEntry where
  username : Option String
  folder : String
  filename : String
  origin : Origin
  raw_path : String
  deriving DecidableEq, Repr

/-- Modelled from the spec: the status of a row of `ArchiveStats.files`
(section 3: unique or duplicate), with the failure flag of an entry whose
extraction failed. -/
inductive Status where
  | unique
  | duplicate
  | unmatched
  deriving DecidableEq, Repr

/-- Modelled from the spec: a row of `ArchiveStats.files` (sections 3 and 6):
the entry, its status and, for origin B, the `kept` flag. -/
structure Row where
  entry : FileEntry
  status : Status
  kept : Option Bool
  deriving DecidableEq, Repr

/-- Modelled from the spec: `ArchiveStats` (section 3). -/
structure ArchiveStats where
  total_files : Nat
  unique_files : Nat
  duplicate_files : Nat
  files : List Row
  deriving DecidableEq, Repr

/-- Modelled from the spec: `DuplicatePair` (section 3). -/
structure DuplicatePair where
  username : String
  a_file : FileEntry
  b_file : FileEntry
  kept_from : Origin
  removed_from : Origin
  deriving DecidableEq, Repr

/-- Modelled from the spec: an element of `MergedArchive.files`
(section 3). -/
structure MergedFile where
  username : String
  source : Origin
  folder : String
  filename : String
  deriving DecidableEq, Repr

/-- Modelled from the spec: `MergedArchive` (section 3). -/
structure MergedArchive where
  total_files : Nat
  files : List MergedFile
  deriving DecidableEq, Repr

/-- Modelled from the spec: `SummaryStats` (section 3). -/
structure SummaryStats where
  total_duplicates : Nat
  total_kept : Nat
  deriving DecidableEq, Repr

/-- Modelled from the spec: the `summary` of a successful response
(section 6). -/
structure Report where
  zip1_stats : ArchiveStats
  zip2_stats : ArchiveStats
  duplicate_pairs : List DuplicatePair
  final_merged : MergedArchive
  summary_stats : SummaryStats
  deriving DecidableEq, Repr

/-- Modelled from the spec: the fatal errors of section 7. -/
inductive EngineError where
  | InvalidArchiveFormat
  | EmptyArchive
  | NoIdentifiableFiles
  | EmptyMergeResult
  deriving DecidableEq, Repr

/-- Modelled from the spec: usernames are trimmed of whitespace
(section 4.1). -/
def trim (s : List Char) : List Char :=
  ((s.dropWhile Char.isWhitespace).reverse.dropWhile Char.isWhitespace).reverse

/-- Modelled from the spec: a name has the `.pdf` extension, case-insensitive
(section 4.1). -/
def isPdf (name : String) : Bool :=
  endsWith (asciiLower name) ".pdf"

/-- Modelled from the spec: Strategy A of the Identity Extractor
(section 4.1): the base name matches `<username>_<code>.pdf`, the username
is everything before the first underscore; fails without an underscore or
without the `.pdf` extension. -/
def strategyA (basename : String) : Option String :=
  if isPdf basename && basename.data.contains '_' then
    some ⟨trim (basename.data.takeWhile fun c => c != '_')⟩
  else none

/-- Modelled from the spec: Strategy B of the Identity Extractor
(section 4.1): the folder name matches `<username>(<number>) <display name>`,
the username is the text before the first `(`, trimmed; fails without a
`(`. -/
def strategyB (folder : String) : Option String :=
  if folder.data.contains '(' then
    some ⟨trim (folder.data.takeWhile fun c => c != '(')⟩
  else none

/-- Modelled from the spec: the base name of a member path (section 4.2). -/
def baseName (path : String) : String :=
  ⟨(path.data.reverse.takeWhile fun c => c != '/').reverse⟩

/-- Modelled from the spec: the containing directory path of a member, or
the sentinel `root` if none (section 4.2). -/
def directoryOf (path : String) : String :=
  if path.data.contains '/' then
    ⟨((path.data.reverse.dropWhile fun c => c != '/').drop 1).reverse⟩
  else "root"

/-- Modelled from the spec: the top-level folder of a member path, if it
has one (section 4.2). -/
def topFolder (path : String) : Option String :=
  if path.data.contains '/' then some ⟨path.data.takeWhile fun c => c != '/'⟩ else none

/-- Modelled from the spec: the Archive Reader for origin A (section 4.2):
one entry per PDF member, folder its directory or `root`, username by
Strategy A on the base name. -/
def readA (members : List String) : List FileEntry :=
  (members.filter isPdf).map fun path =>
    { username := strategyA (baseName path), folder := directoryOf path,
      filename := baseName path, origin := .A, raw_path := path }

/-- Modelled from the spec: the Archive Reader for origin B (section 4.2):
one entry per PDF member of a top-level folder, folder the folder name,
username by Strategy B on the folder name. -/
def readB (members : List String) : List FileEntry :=
  (members.filter isPdf).filterMap fun path =>
    (topFolder path).map fun folder =>
      { username := strategyB folder, folder := folder, filename := baseName path,
        origin := .B, raw_path := path }

/-- Modelled from the spec: the username of a successfully identified entry
(section 3: a null or empty username marks a failed extraction). -/
def identity (e : FileEntry) : Option String :=
  match e.username with
  | some u => if u != "" then some u else none
  | none => none

/-- Modelled from the spec: the usernames of the identified entries of one
side (section 4.3, the key set of the mapping username to entry). -/
def usernamesOf (entries : List FileEntry) : List String :=
  entries.filterMap identity

/-- Modelled from the spec: the duplicate set, the intersection of the two
key sets (section 4.3), in order of first occurrence in archive A. -/
def duplicateNames (entriesA entriesB : List FileEntry) : List String :=
  (firstOccurrences (usernamesOf entriesA)).filter fun u => (usernamesOf entriesB).contains u

/-- Modelled from the spec: the first entry of a side for a username
(section 4.3, stable original ordering). -/
def firstEntry (entries : List FileEntry) (u : String) : Option FileEntry :=
  entries.find? fun e => identity e == some u

/-- Modelled from the spec: the keep policy of section 4.3: one pair per
duplicate username, archive B's copy kept and archive A's copy removed. -/
def resolvePairs (entriesA entriesB : List FileEntry) : List DuplicatePair :=
  (duplicateNames entriesA entriesB).filterMap fun u =>
    match firstEntry entriesA u, firstEntry entriesB u with
    | some a, some b =>
      some { username := u, a_file := a, b_file := b, kept_from := .B, removed_from := .A }
    | _, _ => none

/-- Modelled from the spec: the status of an entry (section 4.3): unmatched
when extraction failed, duplicate when its username is on the other side
too, unique otherwise. -/
def statusOf (other : List FileEntry) (e : FileEntry) : Status :=
  match identity e with
  | none => .unmatched
  | some u => if (usernamesOf other).contains u then .duplicate else .unique

/-- Modelled from the spec: the rows of archive A (section 6: no `kept`
flag on origin-A rows). -/
def rowsA (entriesA entriesB : List FileEntry) : List Row :=
  entriesA.map fun e => { entry := e, status := statusOf entriesB e, kept := none }

/-- Modelled from the spec: whether an origin-B entry survives (section
4.3): a unique entry always, a duplicate entry when it is the kept half of
its pair, an unmatched entry never. -/
def keptB (pairs : List DuplicatePair) (status : Status) (e : FileEntry) : Bool :=
  match status with
  | .unique => true
  | .duplicate => pairs.any fun p => p.b_file == e
  | .unmatched => false

/-- Modelled from the spec: the rows of archive B, with their `kept`
flag. -/
def rowsB (entriesA entriesB : List FileEntry) (pairs : List DuplicatePair) : List Row :=
  entriesB.map fun e =>
    { entry := e, status := statusOf entriesA e,
      kept := some (keptB pairs (statusOf entriesA e) e) }

/-- Modelled from the spec: `ArchiveStats` of a side (sections 3 and 4.5):
counts of the unique and duplicate rows, whose sum is the total. -/
def statsOf (rows : List Row) : ArchiveStats :=
  { total_files := (rows.filter fun r => r.status != .unmatched).length
    unique_files := (rows.filter fun r => r.status == .unique).length
    duplicate_files := (rows.filter fun r => r.status == .duplicate).length
    files := rows }

/-- Modelled from the spec: the merged-file record of an entry. -/
def mergedOf (e : FileEntry) : MergedFile :=
  { username := (identity e).getD "", source := e.origin, folder := e.folder,
    filename := e.filename }

/-- Modelled from the spec: the final member list of the Merge Builder
(section 4.4): all unique entries of both origins, then the kept half of
every duplicate pair. -/
def mergeFiles (rowsOfA rowsOfB : List Row) (pairs : List DuplicatePair) : List MergedFile :=
  ((rowsOfA.filter fun r => r.status == .unique).map fun r => mergedOf r.entry) ++
  ((rowsOfB.filter fun r => r.status == .unique).map fun r => mergedOf r.entry) ++
  pairs.map fun p => mergedOf p.b_file

/-- Modelled from the spec: the engine (sections 2 to 7): read both
archives, resolve duplicates, build the merged list and the report; the
fatal conditions of section 7 abort the run. -/
def compareArchives (archiveA archiveB : Option (List String)) : Except EngineError Report :=
  match archiveA, archiveB with
  | some membersA, some membersB =>
    let entriesA := readA membersA
    let entriesB := readB membersB
    if entriesA.isEmpty || entriesB.isEmpty then .error .EmptyArchive
    else if (usernamesOf entriesA).isEmpty || (usernamesOf entriesB).isEmpty then
      .error .NoIdentifiableFiles
    else
      let pairs := resolvePairs entriesA entriesB
      let rows1 := rowsA entriesA entriesB
      let rows2 := rowsB entriesA entriesB pairs
      let files := mergeFiles rows1 rows2 pairs
      if files.isEmpty then .error .EmptyMergeResult
      else
        .ok { zip1_stats := statsOf rows1
              zip2_stats := statsOf rows2
              duplicate_pairs := pairs
              final_merged := { total_files := files.length, files := files }
              summary_stats := { total_duplicates := pairs.length, total_kept := files.length } }
  | _, _ => .error .InvalidArchiveFormat

/-- The two archives of Scenario 1. -/
def scenario1A : List String := ["alice_001.pdf", "bob_002.pdf"]

/-- Archive B of Scenario 1. -/
def scenario1B : List String := ["alice(12) Alice Smith/alice_final.pdf"]

/-- The report the engine gives for Scenario 1. -/
def scenario1Report : Report :=
  { zip1_stats :=
      { total_files := 2, unique_files := 1, duplicate_files := 1
        files := [⟨⟨some "alice", "root", "alice_001.pdf", .A, "alice_001.pdf"⟩, .duplicate, none⟩,
                  ⟨⟨some "bob", "root", "bob_002.pdf", .A, "bob_002.pdf"⟩, .unique, none⟩] }
    zip2_stats :=
      { total_files := 1, unique_files := 0, duplicate_files := 1
        files := [⟨⟨some "alice", "alice(12) Alice Smith", "alice_final.pdf", .B,
                    "alice(12) Alice Smith/alice_final.pdf"⟩, .duplicate, some true⟩] }
    duplicate_pairs :=
      [{ username := "alice"
         a_file := ⟨some "alice", "root", "alice_001.pdf", .A, "alice_001.pdf"⟩
         b_file := ⟨some "alice", "alice(12) Alice Smith", "alice_final.pdf", .B,
                    "alice(12) Alice Smith/alice_final.pdf"⟩
         kept_from := .B, removed_from := .A }]
    final_merged :=
      { total_files := 2
        files := [⟨"bob", .A, "root", "bob_002.pdf"⟩,
                  ⟨"alice", .B, "alice(12) Alice Smith", "alice_final.pdf"⟩] }
    summary_stats := { total_duplicates := 1, total_kept := 2 } }

end Engine

/-! ## The state `expandedFolders` of `FolderTree` -/

/-- The value `!prev[folder]`: the negation of the own property, `false` for
a name inherited from `Object.prototype` (a truthy value), and `true` for a
missing property (`!undefined`). -/
def toggledValue (prev : ExpandedFolders) (folder : String) : Bool :=
  match prev.lookup folder with
  | some v => !v
  | none => if folder ∈ objectPrototypeKeys then false else true

/-- The object `{ ...prev, [folder]: value }`: an own property keeps its
place, a new one is added last. -/
def setProp (folder : String) (value : Bool) : ExpandedFolders → ExpandedFolders
  | [] => [(folder, value)]
  | (k, v) :: rest =>
    if k = folder then (k, value) :: rest else (k, v) :: setProp folder value rest

/-- The state after `toggleFolder(folder)`. -/
def toggleFolder (prev : ExpandedFolders) (folder : String) : ExpandedFolders :=
  setProp folder (toggledValue prev folder) prev

/-- The states `expandedFolders` can take for a folder structure: the initial
state, and the state after a click on the header of one of its folders. -/
inductive Reachable (fs : FolderStructure) : ExpandedFolders → Prop where
  | initial : Reachable fs (initialExpandedState fs)
  | toggle (st : ExpandedFolders) (g : String × List FileRow) :
      Reachable fs st → g ∈ objectEntries fs → Reachable fs (toggleFolder st g.1)

/-- A report in which a folder of archive B holds two PDFs of the same user,
who is also in archive A: the first PDF is the kept half of the pair, the
second one is dropped. -/
def sharedFolderSummary : Summary :=
  { zip1_stats :=
      { total_files := 1, unique_files := 0, duplicate_files := 1
        files := [⟨"alice", some "root", "alice_001.pdf", "duplicate", none⟩] }
    zip2_stats :=
      { total_files := 2, unique_files := 0, duplicate_files := 2
        files := [⟨"alice", some "alice(12) Alice Smith", "alice_final.pdf", "duplicate",
                   some true⟩,
                  ⟨"alice", some "alice(12) Alice Smith", "alice_draft.pdf", "duplicate",
                   some false⟩] }
    duplicate_pairs :=
      [consumedPair "alice"
        (fileEntryObj "alice" "root" "alice_001.pdf" "A" "alice_001.pdf")
        (fileEntryObj "alice" "alice(12) Alice Smith" "alice_final.pdf" "B"
          "alice(12) Alice Smith/alice_final.pdf")
        "B" "A"]
    final_merged :=
      { total_files := 1
        files := [⟨"alice", "B", "alice(12) Alice Smith", "alice_final.pdf"⟩] }
    summary_stats := { total_duplicates := 1, total_kept := 1 } }

/-! ## Properties of the upload form -/

theorem bothZip_of_files {toLowerCase : String → String} {s : AppState} {f1 f2 : UploadFile}
    (h1 : s.file1 = some f1) (h2 : s.file2 = some f2) :
    bothZip toLowerCase s ↔
      (endsWith (toLowerCase f1.name) ".zip" = true ∧
        endsWith (toLowerCase f2.name) ".zip" = true) := by
  constructor
  · rintro ⟨g1, g2, e1, e2, z1, z2⟩
    rw [h1] at e1; rw [h2] at e2
    cases e1; cases e2
    exact ⟨z1, z2⟩
  · rintro ⟨z1, z2⟩
    exact ⟨f1, f2, h1, h2, z1, z2⟩

/-- C1: handleSubmit sends the POST to /api/compare-zips exactly when both
slots hold a file whose lower-cased name ends with .zip; a missing file gives
the error Please select both ZIP files, a wrong extension gives Both files
must be ZIP files, and in both cases nothing is sent, summary is null and
loading is false. -/
theorem handleSubmit_validation (toLowerCase : String → String)
    (fetch : Request → FetchResult) (s : AppState) :
    ((handleSubmit toLowerCase fetch s).requests ≠ [] ↔ bothZip toLowerCase s) ∧
    (∀ f1 f2, s.file1 = some f1 → s.file2 = some f2 →
      endsWith (toLowerCase f1.name) ".zip" = true →
      endsWith (toLowerCase f2.name) ".zip" = true →
      (handleSubmit toLowerCase fetch s).requests = [⟨"/api/compare-zips", "POST", f1, f2⟩]) ∧
    ((s.file1 = none ∨ s.file2 = none) →
      (handleSubmit toLowerCase fetch s).state.error = .str "Please select both ZIP files" ∧
      (handleSubmit toLowerCase fetch s).requests = [] ∧
      (handleSubmit toLowerCase fetch s).state.summary.isNone = true ∧
      (handleSubmit toLowerCase fetch s).state.loading = false) ∧
    (∀ f1 f2, s.file1 = some f1 → s.file2 = some f2 →
      (endsWith (toLowerCase f1.name) ".zip" = false ∨
        endsWith (toLowerCase f2.name) ".zip" = false) →
      (handleSubmit toLowerCase fetch s).state.error = .str "Both files must be ZIP files" ∧
      (handleSubmit toLowerCase fetch s).requests = [] ∧
      (handleSubmit toLowerCase fetch s).state.summary.isNone = true ∧
      (handleSubmit toLowerCase fetch s).state.loading = false) := by
  rcases hf1 : s.file1 with _ | f1
  · refine ⟨?_, ?_, ?_, ?_⟩
    · simp [handleSubmit, hf1, bothZip]
    · intro g1 g2 h; cases h
    · intro _; simp [handleSubmit, hf1]
    · intro g1 g2 h; cases h
  · rcases hf2 : s.file2 with _ | f2
    · refine ⟨?_, ?_, ?_, ?_⟩
      · simp [handleSubmit, hf1, hf2, bothZip]
      · intro g1 g2 _ h; cases h
      · intro _; simp [handleSubmit, hf1, hf2]
      · intro g1 g2 _ h; cases h
    · rw [bothZip_of_files hf1 hf2]
      by_cases hz : endsWith (toLowerCase f1.name) ".zip" = true ∧
          endsWith (toLowerCase f2.name) ".zip" = true
      · obtain ⟨z1, z2⟩ := hz
        have hreq : (handleSubmit toLowerCase fetch s).requests =
            [⟨"/api/compare-zips", "POST", f1, f2⟩] := by
          simp only [handleSubmit, hf1, hf2, z1, z2, Bool.not_true, Bool.or_self,
            Bool.false_eq_true, if_false]
          rcases fetch ⟨"/api/compare-zips", "POST", f1, f2⟩ with m | ⟨st, body⟩ | (m | data)
          · rfl
          · simp only []
            split <;> rfl
          · rfl
          · simp only []
            split <;> rfl
        refine ⟨?_, ?_, ?_, ?_⟩
        · simp [hreq, z1, z2]
        · intro g1 g2 e1 e2 _ _
          cases e1; cases e2; exact hreq
        · rintro (h | h) <;> cases h
        · intro g1 g2 e1 e2 h
          cases e1; cases e2
          rcases h with h | h
          · rw [z1] at h; cases h
          · rw [z2] at h; cases h
      · have hz' : endsWith (toLowerCase f1.name) ".zip" = false ∨
            endsWith (toLowerCase f2.name) ".zip" = false := by
          by_contra hc
          push_neg at hc
          exact hz ⟨by simpa using hc.1, by simpa using hc.2⟩
        have hcond : (!endsWith (toLowerCase f1.name) ".zip" ||
            !endsWith (toLowerCase f2.name) ".zip") = true := by
          rcases hz' with h | h <;> simp [h]
        refine ⟨?_, ?_, ?_, ?_⟩
        · simp [handleSubmit, hf1, hf2, hcond, hz]
        · intro g1 g2 e1 e2 z1 z2
          cases e1; cases e2
          exact absurd ⟨z1, z2⟩ hz
        · rintro (h | h) <;> cases h
        · intro g1 g2 e1 e2 _
          cases e1; cases e2
          simp [handleSubmit, hf1, hf2, hcond]

/-- C6: handleFile1Change and handleFile2Change store the chosen file exactly
when its lower-cased name ends with .zip; acceptance clears the error,
rejection empties the slot and sets the slot's error message; the other slot
is never touched, and with no file chosen the state is unchanged. -/
theorem handleFileChange_spec (toLowerCase : String → String) (s : AppState) :
    (∀ f : UploadFile,
      ((handleFile1Change toLowerCase (some f) s).file1 = some f ↔
        endsWith (toLowerCase f.name) ".zip" = true) ∧
      (endsWith (toLowerCase f.name) ".zip" = true →
        (handleFile1Change toLowerCase (some f) s).error = .str "") ∧
      (endsWith (toLowerCase f.name) ".zip" = false →
        (handleFile1Change toLowerCase (some f) s).file1 = none ∧
        (handleFile1Change toLowerCase (some f) s).error = .str "File 1 must be a ZIP file") ∧
      (handleFile1Change toLowerCase (some f) s).file2 = s.file2) ∧
    (∀ f : UploadFile,
      ((handleFile2Change toLowerCase (some f) s).file2 = some f ↔
        endsWith (toLowerCase f.name) ".zip" = true) ∧
      (endsWith (toLowerCase f.name) ".zip" = true →
        (handleFile2Change toLowerCase (some f) s).error = .str "") ∧
      (endsWith (toLowerCase f.name) ".zip" = false →
        (handleFile2Change toLowerCase (some f) s).file2 = none ∧
        (handleFile2Change toLowerCase (some f) s).error = .str "File 2 must be a ZIP file") ∧
      (handleFile2Change toLowerCase (some f) s).file1 = s.file1) ∧
    handleFile1Change toLowerCase none s = s ∧
    handleFile2Change toLowerCase none s = s := by
  refine ⟨fun f => ?_, fun f => ?_, rfl, rfl⟩
  · cases hz : endsWith (toLowerCase f.name) ".zip" <;> simp [handleFile1Change, hz]
  · cases hz : endsWith (toLowerCase f.name) ".zip" <;> simp [handleFile2Change, hz]

/-- C2 (counterexample): with the body { detail: '' } and status text
Bad Request the error left by handleSubmit is Error: Bad Request, not the
empty detail. -/
theorem handleSubmit_empty_detail_replaced :
    (handleSubmit asciiLower
        (fun _ => .failure "Bad Request" (some (.obj [("detail", .str "")])))
        { file1 := some ⟨"a.zip"⟩, file2 := some ⟨"b.ZIP"⟩, error := .str "", success := "",
          loading := false, summary := none }).state.error = .str "Error: Bad Request" ∧
    (handleSubmit asciiLower
        (fun _ => .failure "Bad Request" (some (.obj [("detail", .str "")])))
        { file1 := some ⟨"a.zip"⟩, file2 := some ⟨"b.ZIP"⟩, error := .str "", success := "",
          loading := false, summary := none }).state.error ≠ .str "" := by
  constructor
  · rfl
  · intro h
    have h2 : (JVal.str "Error: Bad Request") = .str "" := h
    injection h2 with h3
    exact absurd h3 (by decide)

/-- C2 (amended): for a non-success response whose body is an object with a
string detail d, the error left by handleSubmit is exactly d when d is not
empty, and Error: followed by the status text when d is the empty string. -/
theorem handleSubmit_detail_shown (toLowerCase : String → String)
    (fetch : Request → FetchResult) (s : AppState) (f1 f2 : UploadFile)
    (statusText : String) (fields : List (String × JVal)) (d : String)
    (h1 : s.file1 = some f1) (h2 : s.file2 = some f2)
    (hz1 : endsWith (toLowerCase f1.name) ".zip" = true)
    (hz2 : endsWith (toLowerCase f2.name) ".zip" = true)
    (hresp : fetch ⟨"/api/compare-zips", "POST", f1, f2⟩ =
      .failure statusText (some (.obj fields)))
    (hd : fields.lookup "detail" = some (.str d)) :
    (d ≠ "" → (handleSubmit toLowerCase fetch s).state.error = .str d) ∧
    (d = "" → (handleSubmit toLowerCase fetch s).state.error =
      .str ("Error: " ++ statusText)) := by
  have key : (handleSubmit toLowerCase fetch s).state.error =
      if (JVal.str d).truthy then .str d else .str ("Error: " ++ statusText) := by
    simp only [handleSubmit, h1, h2, hz1, hz2, Bool.not_true, Bool.or_self,
      Bool.false_eq_true, if_false, hresp, JVal.get, hd]
  constructor
  · intro hne
    rw [key]; simp [JVal.truthy, hne]
  · intro he
    rw [key]; simp [JVal.truthy, he]

/-- C2 (witness): the amended statement at the body { detail: oops } with
status text Bad Request and two accepted files. -/
theorem handleSubmit_detail_shown_witness :
    (("oops" : String) ≠ "" →
      (handleSubmit asciiLower
        (fun _ => .failure "Bad Request" (some (.obj [("detail", .str "oops")])))
        { file1 := some ⟨"a.zip"⟩, file2 := some ⟨"b.ZIP"⟩, error := .str "", success := "",
          loading := false, summary := none }).state.error = .str "oops") ∧
    (("oops" : String) = "" →
      (handleSubmit asciiLower
        (fun _ => .failure "Bad Request" (some (.obj [("detail", .str "oops")])))
        { file1 := some ⟨"a.zip"⟩, file2 := some ⟨"b.ZIP"⟩, error := .str "", success := "",
          loading := false, summary := none }).state.error = .str ("Error: " ++ "Bad Request")) :=
  handleSubmit_detail_shown asciiLower _ _ ⟨"a.zip"⟩ ⟨"b.ZIP"⟩ "Bad Request"
    [("detail", .str "oops")] "oops" rfl rfl (by decide) (by decide) rfl rfl

/-! ## Properties of the Duplicate Detection table -/

/-- C4 (counterexample): for the pair of Scenario 1 in the documented shape
(a_file, b_file) the row is not rendered: reading folder from the missing
zip1_file throws. -/
theorem pairRow_documented_shape_throws :
    pairRow (documentedPair "alice"
        (fileEntryObj "alice" "root" "alice_001.pdf" "A" "alice_001.pdf")
        (fileEntryObj "alice" "alice(12) Alice Smith" "alice_final.pdf" "B"
          "alice(12) Alice Smith/alice_final.pdf")
        "B" "A") =
      .error "Cannot read properties of undefined (reading 'folder')" := by
  rfl

/-- C4 (amended): for every duplicate pair of the shape
{ username, zip1_file, zip2_file, kept_from, removed_from } whose two files
are file entries, the row is rendered and shows username, then
zip1_file.folder and zip1_file.filename, then zip2_file.folder and
zip2_file.filename, then kept_from and removed_from. -/
theorem pairRow_consumed_shape (username kept_from removed_from : String)
    (u1 folder1 filename1 origin1 path1 u2 folder2 filename2 origin2 path2 : String) :
    pairRow (consumedPair username
        (fileEntryObj u1 folder1 filename1 origin1 path1)
        (fileEntryObj u2 folder2 filename2 origin2 path2)
        kept_from removed_from) =
      .ok { username := username, zip1Folder := folder1, zip1Filename := filename1,
            zip2Folder := folder2, zip2Filename := filename2,
            keptFrom := kept_from, removedFrom := removed_from } := by
  rfl

/-! ## Properties of the folder structure -/

theorem mem_firstOccurrences (l : List String) (x : String) :
    x ∈ firstOccurrences l ↔ x ∈ l := by
  induction l with
  | nil => simp [firstOccurrences]
  | cons a l ih =>
    simp only [firstOccurrences, List.mem_cons, List.mem_filter, ih]
    by_cases h : x = a <;> simp [h]

theorem nodup_firstOccurrences (l : List String) : (firstOccurrences l).Nodup := by
  induction l with
  | nil => simp [firstOccurrences]
  | cons a l ih =>
    simp only [firstOccurrences, List.nodup_cons, List.mem_filter]
    exact ⟨by simp, ih.filter _⟩

theorem firstOccurrences_snoc (l : List String) (x : String) :
    firstOccurrences (l ++ [x]) =
      if x ∈ l then firstOccurrences l else firstOccurrences l ++ [x] := by
  induction l with
  | nil => simp [firstOccurrences]
  | cons a l ih =>
    simp only [List.cons_append, firstOccurrences, List.mem_cons, List.append_eq]
    rw [ih]
    by_cases hx : x ∈ l
    · simp [hx]
    · by_cases ha : x = a
      · subst ha
        simp [hx, List.filter_append]
      · simp [hx, ha, List.filter_append]

theorem firstOccurrences_filter (p : String → Bool) (l : List String) :
    (firstOccurrences l).filter p = firstOccurrences (l.filter p) := by
  induction l with
  | nil => simp [firstOccurrences]
  | cons a l ih =>
    by_cases hp : p a = true
    · simp only [firstOccurrences, List.filter_cons, hp, if_true]
      rw [List.filter_filter, ← ih, List.filter_filter]
      congr 1
      apply List.filter_congr
      intro y _
      exact Bool.and_comm _ _
    · simp only [firstOccurrences, List.filter_cons, hp, Bool.false_eq_true, if_false]
      rw [List.filter_filter, ← ih]
      apply List.filter_congr
      intro y _
      by_cases hy : y = a
      · subst hy; simp [hp]
      · simp [hy]

theorem lookup_isSome_iff (fs : FolderStructure) (k : String) :
    (fs.lookup k).isSome = true ↔ k ∈ fs.map Prod.fst := by
  induction fs with
  | nil => simp
  | cons e fs ih =>
    obtain ⟨k1, rows⟩ := e
    by_cases h : k = k1
    · subst h; simp [List.lookup]
    · have h2 : (k == k1) = false := by simpa using h
      simp [List.lookup, h2, ih, h]

theorem pushInto_map (folder : String) (file : FileRow) (g : String → List FileRow)
    (ks : List String) (hnd : ks.Nodup) (hmem : folder ∈ ks) :
    pushInto folder file (ks.map fun k => (k, g k)) =
      ks.map fun k => (k, if k = folder then g k ++ [file] else g k) := by
  induction ks with
  | nil => simp at hmem
  | cons a ks ih =>
    rw [List.nodup_cons] at hnd
    by_cases ha : a = folder
    · subst ha
      simp only [List.map_cons, pushInto, if_true]
      congr 1
      apply List.map_congr_left
      intro k hk
      have : k ≠ a := fun e => hnd.1 (e ▸ hk)
      simp [this]
    · have hmem2 : folder ∈ ks := by
        rcases List.mem_cons.1 hmem with h | h
        · exact absurd h.symm ha
        · exact h
      simp only [List.map_cons, pushInto, ha, if_false]
      rw [ih hnd.2 hmem2]

theorem groupsOf_keys (files : List FileRow) :
    (groupsOf files).map Prod.fst = firstOccurrences (files.map folderOf) := by
  simp [groupsOf, Function.comp_def]

theorem addFile_groupsOf (done : List FileRow) (file : FileRow) (fs : FolderStructure)
    (h : addFile (groupsOf done) file = .ok fs) : fs = groupsOf (done ++ [file]) := by
  unfold addFile at h
  simp only [] at h
  by_cases hown : ((groupsOf done).lookup (folderOf file)).isSome = true
  · rw [if_pos hown] at h
    injection h with h
    subst h
    have hmem : folderOf file ∈ done.map folderOf := by
      rw [lookup_isSome_iff, groupsOf_keys, mem_firstOccurrences] at hown
      exact hown
    have hmem2 : folderOf file ∈ firstOccurrences (done.map folderOf) :=
      (mem_firstOccurrences _ _).2 hmem
    unfold groupsOf
    rw [pushInto_map _ _ _ _ (nodup_firstOccurrences _) hmem2]
    rw [List.map_append, List.map_singleton, firstOccurrences_snoc, if_pos hmem]
    apply List.map_congr_left
    intro k _
    by_cases hk : k = folderOf file
    · subst hk; simp [List.filter_append]
    · have hk2 : ¬ folderOf file = k := fun e => hk e.symm
      simp [List.filter_append, hk, hk2]
  · rw [if_neg hown] at h
    by_cases hin : folderOf file ∈ objectPrototypeKeys
    · rw [if_pos hin] at h; cases h
    · rw [if_neg hin] at h
      injection h with h
      subst h
      have hmem : folderOf file ∉ done.map folderOf := by
        rw [lookup_isSome_iff, groupsOf_keys, mem_firstOccurrences] at hown
        exact hown
      unfold groupsOf
      rw [List.map_append, List.map_singleton, firstOccurrences_snoc, if_neg hmem,
        List.map_append, List.map_singleton]
      congr 1
      · apply List.map_congr_left
        intro k hk
        have hk1 : k ∈ done.map folderOf := (mem_firstOccurrences _ _).1 hk
        have hk2 : ¬ folderOf file = k := fun e => hmem (e ▸ hk1)
        simp [List.filter_append, hk2]
      · have : done.filter (fun r => folderOf r == folderOf file) = [] := by
          rw [List.filter_eq_nil_iff]
          intro r hr hrk
          exact hmem (List.mem_map.2 ⟨r, hr, by simpa using hrk⟩)
        simp [List.filter_append, this]

theorem buildFrom_groupsOf (rest done : List FileRow) (fs : FolderStructure)
    (h : buildFrom (groupsOf done) rest = .ok fs) : fs = groupsOf (done ++ rest) := by
  induction rest generalizing done with
  | nil =>
    simp only [buildFrom] at h
    injection h with h
    simp [h]
  | cons file rest ih =>
    simp only [buildFrom] at h
    cases hadd : addFile (groupsOf done) file with
    | error e => rw [hadd] at h; cases h
    | ok fs1 =>
      rw [hadd] at h
      have e1 := addFile_groupsOf done file fs1 hadd
      subst e1
      have := ih (done ++ [file]) h
      simpa using this

theorem buildFolderStructure_eq_groupsOf (files : List FileRow) (fs : FolderStructure)
    (h : buildFolderStructure files = .ok fs) : fs = groupsOf files := by
  have := buildFrom_groupsOf files [] fs (by simpa [buildFolderStructure, groupsOf, firstOccurrences] using h)
  simpa using this

theorem buildFrom_ok (rest : List FileRow) (fs : FolderStructure)
    (h : ∀ r ∈ rest, folderOf r ∉ objectPrototypeKeys) :
    ∃ fs1, buildFrom fs rest = .ok fs1 := by
  induction rest generalizing fs with
  | nil => exact ⟨fs, rfl⟩
  | cons file rest ih =>
    have hfile : folderOf file ∉ objectPrototypeKeys := h file (List.mem_cons_self _ _)
    have hrest : ∀ r ∈ rest, folderOf r ∉ objectPrototypeKeys :=
      fun r hr => h r (List.mem_cons_of_mem _ hr)
    simp only [buildFrom, addFile]
    by_cases hown : (fs.lookup (folderOf file)).isSome = true
    · rw [if_pos hown]
      exact ih _ hrest
    · rw [if_neg hown, if_neg hfile]
      exact ih _ hrest

theorem buildFolderStructure_ok (files : List FileRow)
    (h : ∀ r ∈ files, folderOf r ∉ objectPrototypeKeys) :
    buildFolderStructure files = .ok (groupsOf files) := by
  obtain ⟨fs, hfs⟩ := buildFrom_ok files [] h
  have e := buildFolderStructure_eq_groupsOf files fs hfs
  rw [buildFolderStructure, hfs, e]

theorem objectEntries_perm (fs : FolderStructure) : (objectEntries fs).Perm fs := by
  unfold objectEntries
  simp only []
  have h1 : ((fs.filterMap fun e => (arrayIndex? e.1).map fun i => (i, e)).map Prod.snd) =
      fs.filter fun e => (arrayIndex? e.1).isSome := by
    induction fs with
    | nil => rfl
    | cons e fs ih =>
      cases hi : arrayIndex? e.1 with
      | none => simp [List.filterMap_cons, hi, ih]
      | some i => simp [List.filterMap_cons, hi, ih]
  have h2 : (((fs.filterMap fun e => (arrayIndex? e.1).map fun i => (i, e)).insertionSort
      fun a b => a.1 ≤ b.1).map Prod.snd).Perm
      (fs.filter fun e => (arrayIndex? e.1).isSome) := by
    rw [← h1]
    exact (List.perm_insertionSort _ _).map _
  have h3 : (fs.filter fun e => (arrayIndex? e.1).isNone) =
      fs.filter fun e => !(arrayIndex? e.1).isSome := by
    apply List.filter_congr
    intro e _
    cases arrayIndex? e.1 <;> rfl
  rw [h3]
  exact (h2.append_right _).trans (List.filter_append_perm _ _)

theorem arrayIndex_canonical (s : String) (i : Nat) (h : arrayIndex? s = some i) :
    isCanonicalNat s = true := by
  unfold arrayIndex? at h
  by_cases hc : isCanonicalNat s = true
  · exact hc
  · simp [hc] at h

theorem objectEntries_filter_nonindex (fs : FolderStructure) :
    (objectEntries fs).filter (fun e => !isCanonicalNat e.1) =
      fs.filter fun e => !isCanonicalNat e.1 := by
  unfold objectEntries
  simp only [List.filter_append, List.filter_filter]
  have h1 : (((fs.filterMap fun e => (arrayIndex? e.1).map fun i => (i, e)).insertionSort
      fun a b => a.1 ≤ b.1).map Prod.snd).filter (fun e => !isCanonicalNat e.1) = [] := by
    rw [List.filter_eq_nil_iff]
    intro e he
    rw [List.mem_map] at he
    obtain ⟨⟨i, e1⟩, hmem, rfl⟩ := he
    have hmem2 := (List.perm_insertionSort _ _).mem_iff.1 hmem
    rw [List.mem_filterMap] at hmem2
    obtain ⟨e2, _, he2⟩ := hmem2
    cases hi : arrayIndex? e2.1 with
    | none => simp [hi] at he2
    | some j =>
      simp only [hi, Option.map_some', Option.some.injEq, Prod.mk.injEq] at he2
      obtain ⟨_, rfl⟩ := he2
      simp [arrayIndex_canonical _ _ hi]
  rw [h1, List.nil_append]
  apply List.filter_congr
  intro e _
  cases hc : isCanonicalNat e.1
  · simp [arrayIndex?, hc]
  · simp

theorem sum_indicator (ks : List String) (a : String) (hnd : ks.Nodup) (hmem : a ∈ ks) :
    (ks.map fun k => if a = k then 1 else 0).sum = 1 := by
  induction ks with
  | nil => simp at hmem
  | cons b ks ih =>
    rw [List.nodup_cons] at hnd
    by_cases hab : a = b
    · subst hab
      have hz : (ks.map fun k => if a = k then 1 else 0).sum = 0 := by
        apply List.sum_eq_zero
        intro x hx
        rw [List.mem_map] at hx
        obtain ⟨k, hk, rfl⟩ := hx
        have : a ≠ k := fun e => hnd.1 (e ▸ hk)
        simp [this]
      simp [hz]
    · have hmem2 : a ∈ ks := by
        rcases List.mem_cons.1 hmem with h | h
        · exact absurd h hab
        · exact h
      simp [hab, ih hnd.2 hmem2]

theorem sum_group_sizes (ks : List String) (hnd : ks.Nodup) (l : List FileRow)
    (hcov : ∀ r ∈ l, folderOf r ∈ ks) :
    (ks.map fun k => (l.filter fun r => folderOf r == k).length).sum = l.length := by
  induction l with
  | nil => simp
  | cons r l ih =>
    have hstep : ∀ k, ((r :: l).filter fun x => folderOf x == k).length =
        (if folderOf r = k then 1 else 0) + (l.filter fun x => folderOf x == k).length := by
      intro k
      by_cases h : folderOf r = k
      · simp [List.filter_cons, h]; omega
      · simp [List.filter_cons, h]
    simp only [hstep]
    rw [List.sum_map_add, sum_indicator ks _ hnd (hcov r (List.mem_cons_self _ _)),
      ih fun x hx => hcov x (List.mem_cons_of_mem _ hx)]
    simp [Nat.add_comm]

theorem groupsOf_sizes (files : List FileRow) :
    ((groupsOf files).map fun g => g.2.length).sum = files.length := by
  have := sum_group_sizes (firstOccurrences (files.map folderOf)) (nodup_firstOccurrences _)
    files (fun r hr => (mem_firstOccurrences _ _).2 (List.mem_map_of_mem _ hr))
  simpa [groupsOf, Function.comp_def] using this

theorem mem_groupsOf (files : List FileRow) (g : String × List FileRow)
    (hg : g ∈ groupsOf files) :
    g.1 ∈ files.map folderOf ∧ g.2 = files.filter fun r => folderOf r == g.1 := by
  unfold groupsOf at hg
  rw [List.mem_map] at hg
  obtain ⟨k, hk, rfl⟩ := hg
  exact ⟨(mem_firstOccurrences _ _).1 hk, rfl⟩

/-- C7: the folder structure built by FolderTree is a partition of the input
rows: the groups have distinct keys, every row has the group keyed by its
folder (root for an empty or absent folder), each group holds exactly the
rows of its key in input order and is not empty, the sizes sum to the number
of rows, and the keys that are not canonical non-negative integer strings
are listed in order of first occurrence. -/
theorem folderStructure_partition (files : List FileRow) (fs : FolderStructure)
    (h : buildFolderStructure files = .ok fs) :
    ((objectEntries fs).map Prod.fst).Nodup ∧
    (∀ r ∈ files, ∃ g ∈ objectEntries fs, g.1 = folderOf r) ∧
    (∀ g ∈ objectEntries fs,
      g.2 = (files.filter fun r => folderOf r == g.1) ∧ g.2 ≠ []) ∧
    (∀ r : FileRow, (r.folder = none ∨ r.folder = some "") → folderOf r = "root") ∧
    (∀ (r : FileRow) (f : String), r.folder = some f → f ≠ "" → folderOf r = f) ∧
    ((objectEntries fs).map fun g => g.2.length).sum = files.length ∧
    ((objectEntries fs).map Prod.fst).filter (fun k => !isCanonicalNat k) =
      firstOccurrences ((files.map folderOf).filter fun k => !isCanonicalNat k) := by
  have hfs := buildFolderStructure_eq_groupsOf files fs h
  subst hfs
  have hperm := objectEntries_perm (groupsOf files)
  refine ⟨?_, ?_, ?_, ?_, ?_, ?_, ?_⟩
  · rw [(hperm.map Prod.fst).nodup_iff, groupsOf_keys]
    exact nodup_firstOccurrences _
  · intro r hr
    have hk : folderOf r ∈ (groupsOf files).map Prod.fst := by
      rw [groupsOf_keys, mem_firstOccurrences]
      exact List.mem_map_of_mem _ hr
    rw [List.mem_map] at hk
    obtain ⟨g, hg, hgk⟩ := hk
    exact ⟨g, hperm.mem_iff.2 hg, hgk⟩
  · intro g hg
    obtain ⟨hk, hrows⟩ := mem_groupsOf files g (hperm.mem_iff.1 hg)
    refine ⟨hrows, ?_⟩
    rw [List.mem_map] at hk
    obtain ⟨r, hr, hrk⟩ := hk
    have : r ∈ g.2 := by
      rw [hrows, List.mem_filter]
      exact ⟨hr, by simpa using hrk⟩
    exact List.ne_nil_of_mem this
  · intro r hr
    rcases hr with hr | hr <;> simp [folderOf, hr]
  · intro r f hr hf
    simp [folderOf, hr, hf]
  · rw [(hperm.map fun g => g.2.length).sum_eq]
    exact groupsOf_sizes files
  · have h1 : ((objectEntries (groupsOf files)).map Prod.fst).filter (fun k => !isCanonicalNat k) =
        (((objectEntries (groupsOf files)).filter fun e => !isCanonicalNat e.1).map Prod.fst) := by
      rw [List.filter_map]; rfl
    rw [h1, objectEntries_filter_nonindex]
    have h2 : ((groupsOf files).filter fun e => !isCanonicalNat e.1).map Prod.fst =
        ((groupsOf files).map Prod.fst).filter fun k => !isCanonicalNat k := by
      rw [List.filter_map]; rfl
    rw [h2, groupsOf_keys, firstOccurrences_filter]

/-- C7 (witness): the partition properties of the folder structure of the six
sample rows, whose keys are listed as 2, 10, root, docs. -/
theorem folderStructure_partition_witness :
    buildFolderStructure sampleRows = .ok sampleStructure ∧
    ((objectEntries sampleStructure).map Prod.fst).Nodup ∧
    (∀ r ∈ sampleRows, ∃ g ∈ objectEntries sampleStructure, g.1 = folderOf r) ∧
    (∀ g ∈ objectEntries sampleStructure,
      g.2 = (sampleRows.filter fun r => folderOf r == g.1) ∧ g.2 ≠ []) ∧
    (∀ r : FileRow, (r.folder = none ∨ r.folder = some "") → folderOf r = "root") ∧
    (∀ (r : FileRow) (f : String), r.folder = some f → f ≠ "" → folderOf r = f) ∧
    ((objectEntries sampleStructure).map fun g => g.2.length).sum = sampleRows.length ∧
    ((objectEntries sampleStructure).map Prod.fst).filter (fun k => !isCanonicalNat k) =
      firstOccurrences ((sampleRows.map folderOf).filter fun k => !isCanonicalNat k) :=
  ⟨rfl, folderStructure_partition sampleRows sampleStructure rfl⟩

/-! ## Properties of the rendered trees and tables -/

theorem objectEntries_group (files : List FileRow) (fs : FolderStructure)
    (h : buildFolderStructure files = .ok fs) (g : String × List FileRow)
    (hg : g ∈ objectEntries fs) : g.2 = files.filter fun r => folderOf r == g.1 := by
  have hfs := buildFolderStructure_eq_groupsOf files fs h
  subst hfs
  exact (mem_groupsOf files g ((objectEntries_perm _).mem_iff.1 hg)).2

theorem objectEntries_covers (files : List FileRow) (fs : FolderStructure)
    (h : buildFolderStructure files = .ok fs) (r : FileRow) (hr : r ∈ files) :
    ∃ g ∈ objectEntries fs, g.1 = folderOf r ∧ r ∈ g.2 := by
  have hfs := buildFolderStructure_eq_groupsOf files fs h
  subst hfs
  have hk : folderOf r ∈ (groupsOf files).map Prod.fst := by
    rw [groupsOf_keys, mem_firstOccurrences]
    exact List.mem_map_of_mem _ hr
  rw [List.mem_map] at hk
  obtain ⟨g, hg, hgk⟩ := hk
  refine ⟨g, (objectEntries_perm _).mem_iff.2 hg, hgk, ?_⟩
  rw [(mem_groupsOf files g hg).2, List.mem_filter]
  exact ⟨hr, by simpa using hgk.symm⟩

theorem folderTree_file_views (files : List FileRow) (dups kept : List String)
    (expanded : Option ExpandedFolders) (tree : List FolderView)
    (h : folderTree files dups kept expanded = .ok tree) :
    ∀ fv ∈ tree, ∀ v ∈ fv.files, ∃ r ∈ files, v = fileView dups kept r := by
  unfold folderTree at h
  cases hb : buildFolderStructure files with
  | error e => rw [hb] at h; cases h
  | ok fs =>
    rw [hb] at h
    injection h with h
    subst h
    intro fv hfv v hv
    rw [List.mem_map] at hfv
    obtain ⟨g, hg, rfl⟩ := hfv
    have hrows := objectEntries_group files fs hb g hg
    simp only [folderView] at hv
    split at hv
    · rw [List.mem_map] at hv
      obtain ⟨r, hr, rfl⟩ := hv
      rw [hrows, List.mem_filter] at hr
      exact ⟨r, hr.1, rfl⟩
    · simp at hv

theorem lookup_initialExpandedState (fs : FolderStructure) (k : String) :
    ((initialExpandedState fs).lookup k).getD true = true := by
  unfold initialExpandedState
  induction objectEntries fs with
  | nil => rfl
  | cons e es ih =>
    simp only [List.map_cons, List.lookup]
    cases k == e.1 <;> simp [ih]

theorem folderTree_first_render (files : List FileRow) (dups kept : List String)
    (tree : List FolderView) (h : folderTree files dups kept none = .ok tree) :
    ∀ r ∈ files, ∃ fv ∈ tree, fv.folder = folderOf r ∧ fileView dups kept r ∈ fv.files := by
  unfold folderTree at h
  cases hb : buildFolderStructure files with
  | error e => rw [hb] at h; cases h
  | ok fs =>
    rw [hb] at h
    injection h with h
    subst h
    intro r hr
    obtain ⟨g, hg, hgk, hrg⟩ := objectEntries_covers files fs hb r hr
    refine ⟨_, List.mem_map_of_mem _ hg, hgk, ?_⟩
    simp only [folderView, Option.getD_none, lookup_initialExpandedState, if_true]
    exact List.mem_map_of_mem _ hrg

theorem isKept_iff (kept : List String) (u : String) : isKept kept u = true ↔ u ∈ kept := by
  simp [isKept]

/-- What the ZIP File 1 views do for a username u that has an entry in
final_merged.files, whatever the source of that entry: every row of u in the
ZIP File 1 folder tree carries the Kept badge and not the Removed badge, on
the first render every ZIP File 1 row of u is such a row of the tree, and
the ZIP File 1 details table has Kept in every Action cell. -/
theorem zip1_rows_shown_kept (summary : Summary) (u : String)
    (hu : ∃ m ∈ summary.final_merged.files, m.username = u) :
    (∀ expanded tree, zip1Tree summary expanded = .ok tree →
      ∀ fv ∈ tree, ∀ v ∈ fv.files, v.username = u → v.kept = true ∧ v.removed = false) ∧
    (∀ tree, zip1Tree summary none = .ok tree →
      ∀ r ∈ summary.zip1_stats.files, r.username = u →
        ∃ fv ∈ tree, fv.folder = folderOf r ∧
          ∃ v ∈ fv.files, v.username = u ∧ v.filename = r.filename ∧
            v.kept = true ∧ v.removed = false) ∧
    (∀ d ∈ zip1Table summary, d.action = "Kept") := by
  have hk : isKept (keptUsernames summary) u = true := by
    rw [isKept_iff]
    obtain ⟨m, hm, rfl⟩ := hu
    exact List.mem_map_of_mem _ hm
  refine ⟨?_, ?_, ?_⟩
  · intro expanded tree ht fv hfv v hv hvu
    obtain ⟨r, _, rfl⟩ := folderTree_file_views _ _ _ _ _ ht fv hfv v hv
    simp only [fileView] at hvu ⊢
    subst hvu
    simp [isRemoved, hk]
  · intro tree ht r hr hru
    obtain ⟨fv, hfv, hfolder, hmem⟩ := folderTree_first_render _ _ _ _ ht r hr
    refine ⟨fv, hfv, hfolder, _, hmem, ?_⟩
    subst hru
    simp [fileView, isRemoved, hk]
  · intro d hd
    unfold zip1Table at hd
    rw [List.mem_map] at hd
    obtain ⟨r, _, rfl⟩ := hd
    rfl

theorem mem_zip2RemovedUsernames (summary : Summary) (u : String) :
    u ∈ zip2RemovedUsernames summary ↔
      ∃ x ∈ summary.zip2_stats.files, x.username = u ∧ keptFlag x = false := by
  simp only [zip2RemovedUsernames, List.mem_map, List.mem_filter]
  constructor
  · rintro ⟨x, ⟨hx, hk⟩, rfl⟩
    exact ⟨x, hx, rfl, by simpa using hk⟩
  · rintro ⟨x, hx, rfl, hk⟩
    exact ⟨x, ⟨hx, by simp [hk]⟩, rfl⟩

theorem mem_keptUsernames (summary : Summary) (u : String) :
    u ∈ keptUsernames summary ↔ ∃ m ∈ summary.final_merged.files, m.username = u := by
  simp [keptUsernames]

/-- C10: in the ZIP File 2 folder tree a row is marked Kept exactly when its
username occurs in final_merged.files, and marked Removed exactly when its
username does not occur there and some row of zip2_stats.files with that
username has a falsy kept flag; the marking is a function of the username,
so two rows with the same username get the same marking; and every file line
of the tree is the line of a row of zip2_stats.files. -/
theorem zip2_tree_marking (summary : Summary) :
    (∀ r : FileRow,
      ((fileView (zip2RemovedUsernames summary) (keptUsernames summary) r).kept = true ↔
        ∃ m ∈ summary.final_merged.files, m.username = r.username) ∧
      ((fileView (zip2RemovedUsernames summary) (keptUsernames summary) r).removed = true ↔
        (¬ ∃ m ∈ summary.final_merged.files, m.username = r.username) ∧
        ∃ x ∈ summary.zip2_stats.files, x.username = r.username ∧ keptFlag x = false)) ∧
    (∀ r1 r2 : FileRow, r1.username = r2.username →
      (fileView (zip2RemovedUsernames summary) (keptUsernames summary) r1).kept =
        (fileView (zip2RemovedUsernames summary) (keptUsernames summary) r2).kept ∧
      (fileView (zip2RemovedUsernames summary) (keptUsernames summary) r1).removed =
        (fileView (zip2RemovedUsernames summary) (keptUsernames summary) r2).removed) ∧
    (∀ expanded tree, zip2Tree summary expanded = .ok tree →
      ∀ fv ∈ tree, ∀ v ∈ fv.files, ∃ r ∈ summary.zip2_stats.files,
        v = fileView (zip2RemovedUsernames summary) (keptUsernames summary) r) ∧
    (∀ tree, zip2Tree summary none = .ok tree →
      ∀ r ∈ summary.zip2_stats.files, ∃ fv ∈ tree, fv.folder = folderOf r ∧
        fileView (zip2RemovedUsernames summary) (keptUsernames summary) r ∈ fv.files) := by
  refine ⟨fun r => ⟨?_, ?_⟩, ?_, ?_, ?_⟩
  · simp only [fileView, isKept_iff, mem_keptUsernames]
  · have hrem : isRemoved (zip2RemovedUsernames summary) (keptUsernames summary) r.username =
        true ↔ r.username ∈ zip2RemovedUsernames summary ∧
          r.username ∉ keptUsernames summary := by
      simp [isRemoved, isKept]
    simp only [fileView, hrem, mem_zip2RemovedUsernames, mem_keptUsernames]
    exact And.comm
  · intro r1 r2 h
    simp only [fileView, h, and_self]
  · intro expanded tree ht
    exact folderTree_file_views _ _ _ _ _ ht
  · intro tree ht
    exact folderTree_first_render _ _ _ _ ht

/-! ## Properties of the base64 decoding -/

theorem base64Encode_eq (b : List Nat) :
    base64Encode b = (sextetValues b).map sextetChar ++ padding b := by
  induction b using base64Encode.induct with
  | case1 => rfl
  | case2 a => rfl
  | case3 a b => rfl
  | case4 a b c rest ih => simp [base64Encode, sextetValues, padding, ih]

theorem charSextet_sextetChar : ∀ n < 64, charSextet (sextetChar n) = some n := by
  decide

theorem sextetChar_plain (n : Nat) :
    sextetChar n ≠ '=' ∧ isAsciiWhitespace (sextetChar n) = false := by
  by_cases h : n < 64
  · revert n
    decide
  · have : sextetChar n = 'A' := by
      unfold sextetChar
      rw [List.getD_eq_default]
      simpa [base64Alphabet] using Nat.le_of_not_lt h
    rw [this]
    decide

theorem sextetValues_lt (b : List Nat) (hb : ∀ x ∈ b, x < 256) :
    ∀ s ∈ sextetValues b, s < 64 := by
  induction b using sextetValues.induct with
  | case1 => simp [sextetValues]
  | case2 a =>
    have := hb a (by simp)
    simp only [sextetValues, List.mem_cons, List.mem_singleton, List.not_mem_nil, or_false]
    rintro s (rfl | rfl) <;> omega
  | case3 a b =>
    have := hb a (by simp)
    have := hb b (by simp)
    simp only [sextetValues, List.mem_cons, List.mem_singleton, List.not_mem_nil, or_false]
    rintro s (rfl | rfl | rfl) <;> omega
  | case4 a b c rest ih =>
    have := hb a (by simp)
    have := hb b (by simp)
    have := hb c (by simp)
    have hrest := ih fun x hx => hb x (by simp [hx])
    simp only [sextetValues, List.mem_cons]
    rintro s (rfl | rfl | rfl | rfl | hs)
    · omega
    · omega
    · omega
    · omega
    · exact hrest s hs

theorem sextetsOf_map (l : List Nat) (hl : ∀ s ∈ l, s < 64) :
    sextetsOf (l.map sextetChar) = some l := by
  induction l with
  | nil => rfl
  | cons s l ih =>
    have h1 := charSextet_sextetChar s (hl s (List.mem_cons_self _ _))
    have h2 := ih fun x hx => hl x (List.mem_cons_of_mem _ hx)
    simp only [List.map_cons, sextetsOf, h1, h2]

theorem decodeSextets_sextetValues (b : List Nat) (hb : ∀ x ∈ b, x < 256) :
    decodeSextets (sextetValues b) = b := by
  induction b using sextetValues.induct with
  | case1 => rfl
  | case2 a =>
    have := hb a (by simp)
    simp only [sextetValues, decodeSextets, List.cons.injEq, and_true]
    omega
  | case3 a b =>
    have := hb a (by simp)
    have := hb b (by simp)
    simp only [sextetValues, decodeSextets, List.cons.injEq, and_true]
    constructor <;> omega
  | case4 a b c rest ih =>
    have := hb a (by simp)
    have := hb b (by simp)
    have := hb c (by simp)
    have hrest := ih fun x hx => hb x (by simp [hx])
    simp only [sextetValues, decodeSextets, hrest, List.cons.injEq, and_true]
    refine ⟨?_, ?_, ?_⟩ <;> omega

theorem encoding_lengths (b : List Nat) :
    ((sextetValues b).length + (padding b).length) % 4 = 0 ∧
      (sextetValues b).length % 4 ≠ 1 := by
  induction b using sextetValues.induct with
  | case1 => simp [sextetValues, padding]
  | case2 a => simp [sextetValues, padding]
  | case3 a b => simp [sextetValues, padding]
  | case4 a b c rest ih =>
    simp only [sextetValues, padding, List.length_cons]
    omega

theorem padding_cases (b : List Nat) :
    padding b = [] ∨ padding b = ['='] ∨ padding b = ['=', '='] := by
  induction b using padding.induct with
  | case1 => simp [padding]
  | case2 a => simp [padding]
  | case3 a b => simp [padding]
  | case4 a b c rest ih => simpa [padding] using ih

theorem stripPadding_append (u p : List Char) (hu : ∀ c ∈ u, c ≠ '=')
    (hlen : (u ++ p).length % 4 = 0)
    (hp : p = [] ∨ p = ['='] ∨ p = ['=', '=']) : stripPadding (u ++ p) = u := by
  unfold stripPadding
  rw [if_pos hlen, List.reverse_append]
  have hrev : ∀ c ∈ u.reverse, c ≠ '=' := fun c hc => hu c (List.mem_reverse.1 hc)
  rcases hp with rfl | rfl | rfl
  · simp only [List.reverse_nil, List.nil_append, List.append_nil]
    split
    · rename_i r heq
      exact absurd rfl (hrev '=' (by rw [heq]; simp))
    · rename_i r _ heq
      exact absurd rfl (hrev '=' (by rw [heq]; simp))
    · rfl
  · simp only [List.reverse_cons, List.reverse_nil, List.nil_append, List.singleton_append]
    split
    · rename_i r heq
      injection heq with _ heq
      exact absurd rfl (hrev '=' (by rw [heq]; simp))
    · rename_i r _ heq
      injection heq with _ heq
      rw [← heq, List.reverse_reverse]
    · rename_i h1 h2
      exact absurd rfl (h2 _)
  · simp only [List.reverse_cons, List.reverse_nil, List.nil_append, List.singleton_append,
      List.cons_append]
    exact List.reverse_reverse u

theorem atob_base64Encode (b : List Nat) (hb : ∀ x ∈ b, x < 256) :
    atob (base64Encode b) = .ok b := by
  have hplain : ∀ c ∈ (sextetValues b).map sextetChar,
      c ≠ '=' ∧ isAsciiWhitespace c = false := by
    intro c hc
    rw [List.mem_map] at hc
    obtain ⟨n, _, rfl⟩ := hc
    exact sextetChar_plain n
  have hfilter : (base64Encode b).filter (fun c => !isAsciiWhitespace c) = base64Encode b := by
    rw [List.filter_eq_self]
    intro c hc
    rw [base64Encode_eq, List.mem_append] at hc
    rcases hc with hc | hc
    · simp [(hplain c hc).2]
    · rcases padding_cases b with h | h | h <;> rw [h] at hc <;> simp at hc <;> subst hc <;> decide
  have hlen := encoding_lengths b
  have hstrip : stripPadding (base64Encode b) = (sextetValues b).map sextetChar := by
    rw [base64Encode_eq]
    apply stripPadding_append _ _ (fun c hc => (hplain c hc).1) _ (padding_cases b)
    simpa using hlen.1
  unfold atob
  simp only [hfilter, hstrip, List.length_map, hlen.2, if_false,
    sextetsOf_map _ (sextetValues_lt b hb), decodeSextets_sextetValues b hb]

theorem copyLoop_getElem? (s : List Nat) (n i : Nat) (bytes : List Nat)
    (hlen : i + n ≤ bytes.length) (j : Nat) :
    (copyLoop s n i bytes)[j]? =
      if i ≤ j ∧ j < i + n then some (charCodeAt s j % 256) else bytes[j]? := by
  induction n generalizing i bytes with
  | zero =>
    simp only [copyLoop]
    rw [if_neg]
    omega
  | succ n ih =>
    simp only [copyLoop]
    rw [ih (i + 1) _ (by rw [List.length_set]; omega), List.getElem?_set]
    by_cases h1 : i + 1 ≤ j ∧ j < i + 1 + n
    · rw [if_pos h1, if_pos (by omega)]
    · rw [if_neg h1]
      by_cases h2 : i = j
      · subst h2
        rw [if_pos rfl, if_pos (by omega), if_pos (by omega)]
      · rw [if_neg h2, if_neg (by omega)]

theorem toUint8Array_eq_map (s : List Nat) : toUint8Array s = s.map (· % 256) := by
  apply List.ext_getElem?
  intro j
  unfold toUint8Array
  rw [copyLoop_getElem? s s.length 0 _ (by simp), List.getElem?_map]
  by_cases hj : j < s.length
  · rw [if_pos (by omega), List.getElem?_eq_getElem hj]
    simp [charCodeAt, List.getD_eq_getElem?_getD, List.getElem?_eq_getElem hj]
  · rw [if_neg (by omega), List.getElem?_eq_none (by simpa using hj),
      List.getElem?_eq_none (by simpa using hj)]
    rfl

theorem toUint8Array_bytes (b : List Nat) (hb : ∀ x ∈ b, x < 256) : toUint8Array b = b := by
  rw [toUint8Array_eq_map]
  conv_rhs => rw [← List.map_id b]
  apply List.map_congr_left
  intro x hx
  exact Nat.mod_eq_of_lt (hb x hx)

/-- C5: when zip_file is the standard base64 encoding of the bytes b, the
byte array handleSubmit puts in the downloaded blob is b itself: same
length, same element at every index. -/
theorem handleSubmit_download_bytes (toLowerCase : String → String)
    (fetch : Request → FetchResult) (s : AppState) (f1 f2 : UploadFile)
    (data : SuccessData) (b : List Nat)
    (h1 : s.file1 = some f1) (h2 : s.file2 = some f2)
    (hz1 : endsWith (toLowerCase f1.name) ".zip" = true)
    (hz2 : endsWith (toLowerCase f2.name) ".zip" = true)
    (hresp : fetch ⟨"/api/compare-zips", "POST", f1, f2⟩ = .success (.ok data))
    (hb : ∀ x ∈ b, x < 256)
    (henc : data.zip_file.data = base64Encode b) :
    (handleSubmit toLowerCase fetch s).downloads.map (fun d => d.bytes) = [b] ∧
    (∀ d ∈ (handleSubmit toLowerCase fetch s).downloads,
      d.bytes.length = b.length ∧ ∀ i : Nat, d.bytes[i]? = b[i]?) := by
  have hdl : (handleSubmit toLowerCase fetch s).downloads.map (fun d => d.bytes) = [b] := by
    simp only [handleSubmit, h1, h2, hz1, hz2, Bool.not_true, Bool.or_self,
      Bool.false_eq_true, if_false, hresp, henc, atob_base64Encode b hb,
      toUint8Array_bytes b hb, List.map_cons, List.map_nil]
  refine ⟨hdl, ?_⟩
  intro d hd
  have : d.bytes ∈ (handleSubmit toLowerCase fetch s).downloads.map (fun d => d.bytes) :=
    List.mem_map_of_mem _ hd
  rw [hdl, List.mem_singleton] at this
  rw [this]
  exact ⟨rfl, fun _ => rfl⟩

/-- C5 (witness): the response carrying TWE=, the encoding of the two bytes
77 and 97, yields a download of exactly these two bytes. -/
theorem handleSubmit_download_bytes_witness :
    (handleSubmit asciiLower
        (fun _ => .success (.ok ⟨"TWE=", some "merged.zip", scenario1Summary⟩))
        { file1 := some ⟨"a.zip"⟩, file2 := some ⟨"b.ZIP"⟩, error := .str "", success := "",
          loading := false, summary := none }).downloads.map (fun d => d.bytes) = [[77, 97]] ∧
    (∀ d ∈ (handleSubmit asciiLower
        (fun _ => .success (.ok ⟨"TWE=", some "merged.zip", scenario1Summary⟩))
        { file1 := some ⟨"a.zip"⟩, file2 := some ⟨"b.ZIP"⟩, error := .str "", success := "",
          loading := false, summary := none }).downloads,
      d.bytes.length = [77, 97].length ∧ ∀ i : Nat, d.bytes[i]? = [77, 97][i]?) :=
  handleSubmit_download_bytes asciiLower _ _ ⟨"a.zip"⟩ ⟨"b.ZIP"⟩
    ⟨"TWE=", some "merged.zip", scenario1Summary⟩ [77, 97] rfl rfl (by decide) (by decide) rfl
    (by decide) (by decide)

/-! ## Properties of the engine model -/

namespace Engine

theorem compareArchives_ok (a b : Option (List String)) (r : Report)
    (h : compareArchives a b = .ok r) :
    ∃ ma mb, a = some ma ∧ b = some mb ∧
      r = { zip1_stats := statsOf (rowsA (readA ma) (readB mb))
            zip2_stats := statsOf (rowsB (readA ma) (readB mb)
              (resolvePairs (readA ma) (readB mb)))
            duplicate_pairs := resolvePairs (readA ma) (readB mb)
            final_merged :=
              { total_files := (mergeFiles (rowsA (readA ma) (readB mb))
                  (rowsB (readA ma) (readB mb) (resolvePairs (readA ma) (readB mb)))
                  (resolvePairs (readA ma) (readB mb))).length
                files := mergeFiles (rowsA (readA ma) (readB mb))
                  (rowsB (readA ma) (readB mb) (resolvePairs (readA ma) (readB mb)))
                  (resolvePairs (readA ma) (readB mb)) }
            summary_stats :=
              { total_duplicates := (resolvePairs (readA ma) (readB mb)).length
                total_kept := (mergeFiles (rowsA (readA ma) (readB mb))
                  (rowsB (readA ma) (readB mb) (resolvePairs (readA ma) (readB mb)))
                  (resolvePairs (readA ma) (readB mb))).length } } := by
  cases a with
  | none => simp [compareArchives] at h
  | some ma =>
    cases b with
    | none => simp [compareArchives] at h
    | some mb =>
      refine ⟨ma, mb, rfl, rfl, ?_⟩
      simp only [compareArchives] at h
      split at h
      · cases h
      · split at h
        · cases h
        · split at h
          · cases h
          · injection h with h
            exact h.symm

/-- C8: for every pair of archives the engine accepts, the report has
final_merged.total_files = zip1_stats.unique_files + zip2_stats.unique_files
+ duplicate_pairs.length, and summary_stats.total_kept is that same
number. -/
theorem report_totals (a b : Option (List String)) (r : Report)
    (h : compareArchives a b = .ok r) :
    r.final_merged.total_files =
      r.zip1_stats.unique_files + r.zip2_stats.unique_files + r.duplicate_pairs.length ∧
    r.summary_stats.total_kept =
      r.zip1_stats.unique_files + r.zip2_stats.unique_files + r.duplicate_pairs.length := by
  obtain ⟨ma, mb, _, _, hr⟩ := compareArchives_ok a b r h
  subst hr
  simp [mergeFiles, statsOf, List.length_append, List.length_map, Nat.add_assoc]

/-- C8 (witness): the totals of the report of Scenario 1. -/
theorem report_totals_witness :
    scenario1Report.final_merged.total_files =
      scenario1Report.zip1_stats.unique_files + scenario1Report.zip2_stats.unique_files +
        scenario1Report.duplicate_pairs.length ∧
    scenario1Report.summary_stats.total_kept =
      scenario1Report.zip1_stats.unique_files + scenario1Report.zip2_stats.unique_files +
        scenario1Report.duplicate_pairs.length :=
  report_totals (some scenario1A) (some scenario1B) scenario1Report rfl

theorem mem_usernamesOf (entries : List FileEntry) (u : String) :
    u ∈ usernamesOf entries ↔ ∃ e ∈ entries, identity e = some u := by
  simp [usernamesOf, List.mem_filterMap]

theorem firstEntry_some (entries : List FileEntry) (u : String) (e : FileEntry)
    (h : firstEntry entries u = some e) : e ∈ entries ∧ identity e = some u := by
  unfold firstEntry at h
  refine ⟨List.mem_of_find?_eq_some h, ?_⟩
  have := List.find?_some h
  simpa using this

theorem firstEntry_of_mem (entries : List FileEntry) (u : String)
    (h : u ∈ usernamesOf entries) : ∃ e, firstEntry entries u = some e := by
  rw [mem_usernamesOf] at h
  obtain ⟨e, he, hid⟩ := h
  have : (firstEntry entries u).isSome = true := by
    unfold firstEntry
    rw [List.find?_isSome]
    exact ⟨e, he, by simp [hid]⟩
  exact Option.isSome_iff_exists.1 this

theorem mem_duplicateNames (entriesA entriesB : List FileEntry) (u : String) :
    u ∈ duplicateNames entriesA entriesB ↔
      u ∈ usernamesOf entriesA ∧ u ∈ usernamesOf entriesB := by
  simp [duplicateNames, List.mem_filter, mem_firstOccurrences]

theorem mem_resolvePairs (entriesA entriesB : List FileEntry) (p : DuplicatePair)
    (h : p ∈ resolvePairs entriesA entriesB) :
    p.kept_from = .B ∧ p.removed_from = .A ∧
      p.username ∈ duplicateNames entriesA entriesB ∧
      firstEntry entriesA p.username = some p.a_file ∧
      firstEntry entriesB p.username = some p.b_file := by
  unfold resolvePairs at h
  rw [List.mem_filterMap] at h
  obtain ⟨u, hu, hp⟩ := h
  cases ha : firstEntry entriesA u with
  | none => simp [ha] at hp
  | some ea =>
    cases hb : firstEntry entriesB u with
    | none => simp [ha, hb] at hp
    | some eb =>
      simp only [ha, hb, Option.some.injEq] at hp
      subst hp
      exact ⟨rfl, rfl, hu, ha, hb⟩

theorem readB_origin (members : List String) (e : FileEntry) (h : e ∈ readB members) :
    e.origin = .B := by
  unfold readB at h
  rw [List.mem_filterMap] at h
  obtain ⟨path, _, hp⟩ := h
  cases ht : topFolder path with
  | none => simp [ht] at hp
  | some f =>
    simp only [ht, Option.map_some', Option.some.injEq] at hp
    subst hp
    rfl

theorem unique_row_name (other : List FileEntry) (e : FileEntry)
    (h : statusOf other e = .unique) :
    ∃ u, identity e = some u ∧ u ∉ usernamesOf other := by
  unfold statusOf at h
  cases hid : identity e with
  | none => simp [hid] at h
  | some u =>
    refine ⟨u, rfl, ?_⟩
    intro hu
    simp [hid, hu] at h

/-- C9: for every username present in both archives the engine makes a
duplicate pair; every duplicate pair has kept_from = B and removed_from = A,
final_merged.files has an entry for its username, and every entry of
final_merged.files for that username has source B. -/
theorem keep_policy (ma mb : List String) (r : Report)
    (h : compareArchives (some ma) (some mb) = .ok r) :
    (∀ u, u ∈ usernamesOf (readA ma) → u ∈ usernamesOf (readB mb) →
      ∃ p ∈ r.duplicate_pairs, p.username = u) ∧
    (∀ p ∈ r.duplicate_pairs,
      p.username ∈ usernamesOf (readA ma) ∧ p.username ∈ usernamesOf (readB mb) ∧
      p.kept_from = .B ∧ p.removed_from = .A ∧
      (∃ f ∈ r.final_merged.files, f.username = p.username) ∧
      (∀ f ∈ r.final_merged.files, f.username = p.username → f.source = .B)) := by
  obtain ⟨ma1, mb1, ha, hb, hr⟩ := compareArchives_ok _ _ r h
  cases ha; cases hb
  subst hr
  constructor
  · intro u hua hub
    obtain ⟨ea, hea⟩ := firstEntry_of_mem _ u hua
    obtain ⟨eb, heb⟩ := firstEntry_of_mem _ u hub
    refine ⟨{ username := u, a_file := ea, b_file := eb, kept_from := .B, removed_from := .A },
      ?_, rfl⟩
    show _ ∈ resolvePairs (readA ma) (readB mb)
    unfold resolvePairs
    rw [List.mem_filterMap]
    exact ⟨u, (mem_duplicateNames _ _ u).2 ⟨hua, hub⟩, by simp [hea, heb]⟩
  · intro p hp
    have hp1 : p ∈ resolvePairs (readA ma) (readB mb) := hp
    obtain ⟨hk, hrm, hdup, _, hbf⟩ := mem_resolvePairs _ _ p hp1
    obtain ⟨hinA, hinB⟩ := (mem_duplicateNames _ _ _).1 hdup
    have hsource : ∀ q ∈ resolvePairs (readA ma) (readB mb),
        (mergedOf q.b_file).source = .B ∧ (mergedOf q.b_file).username = q.username := by
      intro q hq
      obtain ⟨_, _, _, _, hqb⟩ := mem_resolvePairs _ _ q hq
      obtain ⟨hmem, hid⟩ := firstEntry_some _ _ _ hqb
      exact ⟨readB_origin mb _ hmem, by simp [mergedOf, hid]⟩
    refine ⟨hinA, hinB, hk, hrm, ?_, ?_⟩
    · refine ⟨mergedOf p.b_file, ?_, (hsource p hp1).2⟩
      show _ ∈ mergeFiles _ _ _
      unfold mergeFiles
      exact List.mem_append_right _ (List.mem_map_of_mem _ hp1)
    · intro f hf hfu
      have hf1 : f ∈ mergeFiles (rowsA (readA ma) (readB mb))
          (rowsB (readA ma) (readB mb) (resolvePairs (readA ma) (readB mb)))
          (resolvePairs (readA ma) (readB mb)) := hf
      unfold mergeFiles at hf1
      rw [List.mem_append, List.mem_append] at hf1
      rcases hf1 with (hf1 | hf1) | hf1
      · exfalso
        rw [List.mem_map] at hf1
        obtain ⟨row, hrow, rfl⟩ := hf1
        rw [List.mem_filter] at hrow
        obtain ⟨hrow, hst⟩ := hrow
        unfold rowsA at hrow
        rw [List.mem_map] at hrow
        obtain ⟨e, _, rfl⟩ := hrow
        obtain ⟨u, hid, hnot⟩ := unique_row_name (readB mb) e (by simpa using hst)
        have : u = p.username := by simpa [mergedOf, hid] using hfu
        exact hnot (this ▸ hinB)
      · exfalso
        rw [List.mem_map] at hf1
        obtain ⟨row, hrow, rfl⟩ := hf1
        rw [List.mem_filter] at hrow
        obtain ⟨hrow, hst⟩ := hrow
        unfold rowsB at hrow
        rw [List.mem_map] at hrow
        obtain ⟨e, _, rfl⟩ := hrow
        obtain ⟨u, hid, hnot⟩ := unique_row_name (readA ma) e (by simpa using hst)
        have : u = p.username := by simpa [mergedOf, hid] using hfu
        exact hnot (this ▸ hinA)
      · rw [List.mem_map] at hf1
        obtain ⟨q, hq, rfl⟩ := hf1
        exact (hsource q hq).1

/-- C9 (witness): Scenario 1 yields one pair for alice kept from B, bob kept
from A and two merged files, and the keep policy holds of its report. -/
theorem keep_policy_witness :
    compareArchives (some scenario1A) (some scenario1B) = .ok scenario1Report ∧
    scenario1Report.duplicate_pairs.map (fun p => (p.username, p.kept_from, p.removed_from)) =
      [("alice", .B, .A)] ∧
    scenario1Report.final_merged.files.map (fun f => (f.username, f.source)) =
      [("bob", .A), ("alice", .B)] ∧
    scenario1Report.final_merged.total_files = 2 ∧
    (∀ u, u ∈ usernamesOf (readA scenario1A) → u ∈ usernamesOf (readB scenario1B) →
      ∃ p ∈ scenario1Report.duplicate_pairs, p.username = u) ∧
    (∀ p ∈ scenario1Report.duplicate_pairs,
      p.username ∈ usernamesOf (readA scenario1A) ∧
      p.username ∈ usernamesOf (readB scenario1B) ∧
      p.kept_from = .B ∧ p.removed_from = .A ∧
      (∃ f ∈ scenario1Report.final_merged.files, f.username = p.username) ∧
      (∀ f ∈ scenario1Report.final_merged.files, f.username = p.username → f.source = .B)) :=
  ⟨rfl, rfl, rfl, rfl, keep_policy scenario1A scenario1B scenario1Report rfl⟩

end Engine

/-! ## Tree and table of archive B compared -/

/-- C11 (failing input): in the report where alice_final.pdf (kept = true)
and alice_draft.pdf (kept = false) share the username alice, which is in
final_merged.files, the ZIP File 2 tree marks both rows Kept and none
Removed, while the ZIP File 2 table marks the first Kept and the second
Removed. -/
theorem zip2_tree_table_disagree :
    zip2Tree sharedFolderSummary none =
      .ok [{ folder := "alice(12) Alice Smith", isExpanded := true, totalCount := 2,
             keptCount := 2, removedCount := 0,
             files := [{ filename := "alice_final.pdf", username := "alice", kept := true,
                         removed := false, rowClass := "bg-green-50",
                         nameClass := "text-gray-700" },
                       { filename := "alice_draft.pdf", username := "alice", kept := true,
                         removed := false, rowClass := "bg-green-50",
                         nameClass := "text-gray-700" }] }] ∧
    zip2Table sharedFolderSummary =
      [{ username := "alice", folder := "alice(12) Alice Smith",
         filename := "alice_final.pdf", status := "Duplicate", action := "Kept" },
       { username := "alice", folder := "alice(12) Alice Smith",
         filename := "alice_draft.pdf", status := "Duplicate", action := "Removed" }] := by
  exact ⟨rfl, rfl⟩

/-! ## The ZIP File 1 tree never marks a removal -/

theorem isRemoved_zip1 (summary : Summary) (u : String) :
    isRemoved (zip1TreeDuplicates summary) (keptUsernames summary) u = false := by
  cases hk : isKept (keptUsernames summary) u with
  | true => simp [isRemoved, hk]
  | false =>
    have hnot : u ∉ keptUsernames summary := fun hmem => by
      rw [(isKept_iff _ _).2 hmem] at hk
      cases hk
    simp [isRemoved, hk, zip1TreeDuplicates, List.mem_filter, hnot]

/-- C14: the duplicate list given to the ZIP File 1 tree is the usernames of
duplicate_pairs filtered to those of final_merged.files, so isRemoved is
false for every username, every folder of the tree has removed count 0 and
no file line of the tree is marked Removed. -/
theorem zip1_tree_no_removed (summary : Summary) :
    zip1TreeDuplicates summary =
      ((summary.duplicate_pairs.map fun p => p.username).filter fun u =>
        (summary.final_merged.files.map fun f => f.username).contains u) ∧
    (∀ u, isRemoved (zip1TreeDuplicates summary) (keptUsernames summary) u = false) ∧
    (∀ expanded tree, zip1Tree summary expanded = .ok tree →
      ∀ fv ∈ tree, fv.removedCount = 0 ∧ ∀ v ∈ fv.files, v.removed = false) := by
  refine ⟨rfl, isRemoved_zip1 summary, ?_⟩
  intro expanded tree ht fv hfv
  constructor
  · unfold zip1Tree folderTree at ht
    cases hb : buildFolderStructure summary.zip1_stats.files with
    | error e => rw [hb] at ht; cases ht
    | ok fs =>
      rw [hb] at ht
      injection ht with ht
      subst ht
      rw [List.mem_map] at hfv
      obtain ⟨g, _, rfl⟩ := hfv
      simp [folderView, isRemoved_zip1]
  · intro v hv
    obtain ⟨r, _, rfl⟩ := folderTree_file_views _ _ _ _ _ ht fv hfv v hv
    exact isRemoved_zip1 summary r.username

/-! ## Folder names inherited from `Object.prototype` -/

/-- C15 (failing input): for a single row whose folder is constructor,
toString or __proto__ the build of the folder structure throws, and so does
the whole FolderTree; no group is made for the row. -/
theorem buildFolderStructure_inherited_name_throws :
    buildFolderStructure [⟨"ann", some "constructor", "ann_1.pdf", "unique", none⟩] =
      .error "folderStructure[folder].push is not a function" ∧
    buildFolderStructure [⟨"ann", some "toString", "ann_1.pdf", "unique", none⟩] =
      .error "folderStructure[folder].push is not a function" ∧
    buildFolderStructure [⟨"bob", some "docs", "bob_2.pdf", "unique", none⟩,
                          ⟨"ann", some "__proto__", "ann_1.pdf", "unique", none⟩] =
      .error "folderStructure[folder].push is not a function" ∧
    folderTree [⟨"ann", some "constructor", "ann_1.pdf", "unique", none⟩] [] ["ann"] none =
      .error "folderStructure[folder].push is not a function" := by
  exact ⟨rfl, rfl, rfl, rfl⟩

theorem pushInto_keys (folder : String) (file : FileRow) (fs : FolderStructure) :
    (pushInto folder file fs).map Prod.fst = fs.map Prod.fst := by
  induction fs with
  | nil => rfl
  | cons e fs ih =>
    obtain ⟨k, rows⟩ := e
    by_cases hk : k = folder
    · simp [pushInto, hk]
    · simp [pushInto, hk, ih]

theorem buildFrom_error (rest : List FileRow) (fs : FolderStructure)
    (hfs : ∀ k ∈ fs.map Prod.fst, k ∉ objectPrototypeKeys)
    (h : ∃ r ∈ rest, folderOf r ∈ objectPrototypeKeys) :
    buildFrom fs rest = .error pushNotFunctionMessage := by
  induction rest generalizing fs with
  | nil =>
    obtain ⟨r, hr, _⟩ := h
    cases hr
  | cons file rest ih =>
    simp only [buildFrom, addFile]
    by_cases hin : folderOf file ∈ objectPrototypeKeys
    · have hown : ¬ (fs.lookup (folderOf file)).isSome = true := by
        rw [lookup_isSome_iff]
        exact fun hmem => hfs _ hmem hin
      rw [if_neg hown, if_pos hin]
    · have hrest : ∃ r ∈ rest, folderOf r ∈ objectPrototypeKeys := by
        obtain ⟨r, hr, hrin⟩ := h
        rcases List.mem_cons.1 hr with rfl | hr
        · exact absurd hrin hin
        · exact ⟨r, hr, hrin⟩
      by_cases hown : (fs.lookup (folderOf file)).isSome = true
      · rw [if_pos hown]
        apply ih _ _ hrest
        rw [pushInto_keys]
        exact hfs
      · rw [if_neg hown, if_neg hin]
        apply ih _ _ hrest
        intro k hk
        rw [List.map_append, List.mem_append] at hk
        rcases hk with hk | hk
        · exact hfs k hk
        · simp only [List.map_cons, List.map_nil, List.mem_singleton] at hk
          rw [hk]
          exact hin

theorem buildFolderStructure_error (files : List FileRow)
    (h : ∃ r ∈ files, folderOf r ∈ objectPrototypeKeys) :
    buildFolderStructure files = .error pushNotFunctionMessage :=
  buildFrom_error files [] (by simp) h

/-! ## Properties of `toggleFolder` -/

theorem lookup_setProp_self (folder : String) (value : Bool) (st : ExpandedFolders) :
    (setProp folder value st).lookup folder = some value := by
  induction st with
  | nil => simp [setProp, List.lookup]
  | cons e st ih =>
    obtain ⟨k, v⟩ := e
    by_cases hk : k = folder
    · subst hk
      simp [setProp, List.lookup]
    · have hne : (folder == k) = false := by
        simpa using fun e : folder = k => hk e.symm
      simp [setProp, hk, List.lookup, hne, ih]

theorem lookup_setProp_ne (folder other : String) (value : Bool) (st : ExpandedFolders)
    (h : other ≠ folder) : (setProp folder value st).lookup other = st.lookup other := by
  induction st with
  | nil =>
    have hne : (other == folder) = false := by simpa using h
    simp [setProp, List.lookup, hne]
  | cons e st ih =>
    obtain ⟨k, v⟩ := e
    by_cases hk : k = folder
    · subst hk
      have hne : (other == k) = false := by simpa using h
      simp [setProp, List.lookup, hne]
    · cases hok : other == k
      · simp [setProp, hk, List.lookup, hok, ih]
      · simp [setProp, hk, List.lookup, hok]

theorem setProp_restore (folder : String) (v w : Bool) (st : ExpandedFolders)
    (h : st.lookup folder = some v) : setProp folder v (setProp folder w st) = st := by
  induction st with
  | nil => simp [List.lookup] at h
  | cons e st ih =>
    obtain ⟨k, x⟩ := e
    by_cases hk : k = folder
    · subst hk
      simp only [List.lookup, beq_self_eq_true, Option.some.injEq] at h
      subst h
      simp [setProp]
    · have hne : (folder == k) = false := by
        simpa using fun e : folder = k => hk e.symm
      simp only [List.lookup, hne] at h
      simp [setProp, hk, ih h]

theorem lookup_initial_of_mem (fs : FolderStructure) (g : String × List FileRow)
    (hg : g ∈ objectEntries fs) : (initialExpandedState fs).lookup g.1 = some true := by
  unfold initialExpandedState
  generalize objectEntries fs = es at hg
  induction es with
  | nil => cases hg
  | cons e es ih =>
    simp only [List.map_cons, List.lookup]
    cases hk : g.1 == e.1 with
    | true => rfl
    | false =>
      rcases List.mem_cons.1 hg with rfl | hmem
      · simp at hk
      · exact ih hmem

theorem reachable_has_key (fs : FolderStructure) (st : ExpandedFolders)
    (hst : Reachable fs st) (g : String × List FileRow) (hg : g ∈ objectEntries fs) :
    ∃ v, st.lookup g.1 = some v := by
  induction hst with
  | initial => exact ⟨true, lookup_initial_of_mem fs g hg⟩
  | toggle st1 g1 _ _ ih =>
    by_cases hk : g.1 = g1.1
    · rw [hk]
      exact ⟨_, lookup_setProp_self _ _ _⟩
    · obtain ⟨v, hv⟩ := ih
      exact ⟨v, by rw [toggleFolder, lookup_setProp_ne _ _ _ _ hk, hv]⟩

/-- C12: on the first render every folder of the folder structure is
expanded; in every state the component can reach, toggleFolder on a folder
of the structure flips the displayed state of that folder, leaves the
displayed state of every other folder unchanged, and applied twice gives
back the previous state. -/
theorem toggleFolder_spec (fs : FolderStructure) (dups kept : List String) :
    (∀ g ∈ objectEntries fs, (folderView dups kept (initialExpandedState fs) g).isExpanded = true) ∧
    (∀ files tree, folderTree files dups kept none = .ok tree →
      ∀ fv ∈ tree, fv.isExpanded = true) ∧
    (∀ st, Reachable fs st → ∀ g ∈ objectEntries fs,
      (folderView dups kept (toggleFolder st g.1) g).isExpanded =
        !(folderView dups kept st g).isExpanded ∧
      (∀ g2 : String × List FileRow, g2.1 ≠ g.1 →
        (folderView dups kept (toggleFolder st g.1) g2).isExpanded =
          (folderView dups kept st g2).isExpanded) ∧
      toggleFolder (toggleFolder st g.1) g.1 = st) := by
  refine ⟨?_, ?_, ?_⟩
  · intro g _
    simp only [folderView, lookup_initialExpandedState]
  · intro files tree ht fv hfv
    unfold folderTree at ht
    cases hb : buildFolderStructure files with
    | error e => rw [hb] at ht; cases ht
    | ok fs1 =>
      rw [hb] at ht
      injection ht with ht
      subst ht
      rw [List.mem_map] at hfv
      obtain ⟨g, _, rfl⟩ := hfv
      simp only [folderView, Option.getD_none, lookup_initialExpandedState]
  · intro st hst g hg
    obtain ⟨v, hv⟩ := reachable_has_key fs st hst g hg
    have htv : toggledValue st g.1 = !v := by simp [toggledValue, hv]
    refine ⟨?_, ?_, ?_⟩
    · simp only [folderView, toggleFolder, lookup_setProp_self, hv, htv, Option.getD_some]
    · intro g2 hne
      simp only [folderView, toggleFolder, lookup_setProp_ne _ _ _ _ hne]
    · have h1 : (toggleFolder st g.1).lookup g.1 = some (!v) := by
        rw [toggleFolder, lookup_setProp_self, htv]
      have h2 : toggledValue (toggleFolder st g.1) g.1 = v := by
        simp [toggledValue, h1]
      rw [toggleFolder, h2]
      show setProp g.1 v (setProp g.1 (toggledValue st g.1) st) = st
      exact setProp_restore _ _ _ _ hv

/-- C12 (witness): in the initial state of the sample structure, a click on
the folder docs collapses it, leaves the folder root expanded, and a second
click gives back the initial state. -/
theorem toggleFolder_spec_witness :
    (folderView [] [] (toggleFolder (initialExpandedState sampleStructure) "docs")
        ("docs", [⟨"eve", some "docs", "eve_5.pdf", "unique", none⟩])).isExpanded =
      !(folderView [] [] (initialExpandedState sampleStructure)
        ("docs", [⟨"eve", some "docs", "eve_5.pdf", "unique", none⟩])).isExpanded ∧
    (∀ g2 : String × List FileRow, g2.1 ≠ "docs" →
      (folderView [] [] (toggleFolder (initialExpandedState sampleStructure) "docs")
          g2).isExpanded =
        (folderView [] [] (initialExpandedState sampleStructure) g2).isExpanded) ∧
    toggleFolder (toggleFolder (initialExpandedState sampleStructure) "docs") "docs" =
      initialExpandedState sampleStructure :=
  (toggleFolder_spec sampleStructure [] []).2.2 (initialExpandedState sampleStructure)
    Reachable.initial ("docs", [⟨"eve", some "docs", "eve_5.pdf", "unique", none⟩])
    (by decide)

/-! ## Error responses -/

theorem JVal.get_ok (v : JVal) (key : String) (h1 : v ≠ .null) (h2 : v ≠ .undefined) :
    ∃ d, v.get key = .ok d := by
  cases v with
  | undefined => exact absurd rfl h2
  | null => exact absurd rfl h1
  | bool b => exact ⟨_, rfl⟩
  | num n => exact ⟨_, rfl⟩
  | str s => exact ⟨_, rfl⟩
  | arr xs => exact ⟨_, rfl⟩
  | obj fields =>
    simp only [JVal.get]
    cases fields.lookup key with
    | none => exact ⟨_, rfl⟩
    | some x => exact ⟨_, rfl⟩

/-- For a non-success response handleSubmit triggers no download and leaves
summary null, success empty and loading false; a body that is not JSON gives
the error Unknown error occurred; a body other than null whose detail is
absent or falsy gives Error: followed by the status text. -/
theorem handleSubmit_failure (toLowerCase : String → String)
    (fetch : Request → FetchResult) (s : AppState) (f1 f2 : UploadFile)
    (statusText : String) (body : Option JVal)
    (h1 : s.file1 = some f1) (h2 : s.file2 = some f2)
    (hz1 : endsWith (toLowerCase f1.name) ".zip" = true)
    (hz2 : endsWith (toLowerCase f2.name) ".zip" = true)
    (hresp : fetch ⟨"/api/compare-zips", "POST", f1, f2⟩ = .failure statusText body) :
    (handleSubmit toLowerCase fetch s).downloads = [] ∧
    (handleSubmit toLowerCase fetch s).state.summary.isNone = true ∧
    (handleSubmit toLowerCase fetch s).state.success = "" ∧
    (handleSubmit toLowerCase fetch s).state.loading = false ∧
    (body = none →
      (handleSubmit toLowerCase fetch s).state.error = .str "Unknown error occurred") ∧
    (∀ v d, body = some v → v.get "detail" = .ok d → d.truthy = false →
      (handleSubmit toLowerCase fetch s).state.error = .str ("Error: " ++ statusText)) := by
  simp only [handleSubmit, h1, h2, hz1, hz2, Bool.not_true, Bool.or_self,
    Bool.false_eq_true, if_false, hresp]
  cases body with
  | none =>
    refine ⟨rfl, rfl, rfl, rfl, fun _ => rfl, ?_⟩
    intro v d hb
    cases hb
  | some v =>
    cases hget : v.get "detail" with
    | error m =>
      refine ⟨rfl, rfl, rfl, rfl, (fun hb => Option.noConfusion hb), ?_⟩
      intro v1 d hb hget1
      cases hb
      rw [hget] at hget1
      cases hget1
    | ok d0 =>
      refine ⟨rfl, rfl, rfl, rfl, (fun hb => Option.noConfusion hb), ?_⟩
      intro v1 d hb hget1 hfalsy
      cases hb
      rw [hget] at hget1
      cases hget1
      simp only [hfalsy, Bool.false_eq_true, if_false]

/-- C13 (failing input): for a non-success response whose body is the JSON
value null, which parses and has no detail, the error shown is not Error:
followed by the status text but Error: followed by the message of the
TypeError raised by reading detail from null; no download is triggered,
summary stays null, success stays empty and loading ends false. -/
theorem handleSubmit_null_body :
    (handleSubmit asciiLower (fun _ => .failure "Internal Server Error" (some .null))
        { file1 := some ⟨"a.zip"⟩, file2 := some ⟨"b.ZIP"⟩, error := .str "", success := "",
          loading := false, summary := none }).state.error =
      .str "Error: Cannot read properties of null (reading 'detail')" ∧
    (handleSubmit asciiLower (fun _ => .failure "Internal Server Error" (some .null))
        { file1 := some ⟨"a.zip"⟩, file2 := some ⟨"b.ZIP"⟩, error := .str "", success := "",
          loading := false, summary := none }).state.error ≠
      .str "Error: Internal Server Error" ∧
    (handleSubmit asciiLower (fun _ => .failure "Internal Server Error" (some .null))
        { file1 := some ⟨"a.zip"⟩, file2 := some ⟨"b.ZIP"⟩, error := .str "", success := "",
          loading := false, summary := none }).downloads = [] := by
  refine ⟨rfl, ?_, rfl⟩
  intro h
  have h2 : (JVal.str "Error: Cannot read properties of null (reading 'detail')") =
      .str "Error: Internal Server Error" := h
  injection h2 with h3
  exact absurd h3 (by decide)


/-! ## The page shown for Scenario 1 -/

theorem pairRow_eq_phases (pair : DuplicatePair) :
    pairRow pair =
      match pairReads pair with
      | .error e => .error e
      | .ok cells => renderPairCells cells := by
  unfold pairRow pairReads
  cases h1 : (pair.prop "zip1_file").get "folder" with
  | error e => rfl
  | ok a =>
    cases h2 : (pair.prop "zip1_file").get "filename" with
    | error e => rfl
    | ok b =>
      cases h3 : (pair.prop "zip2_file").get "folder" with
      | error e => rfl
      | ok c =>
        cases h4 : (pair.prop "zip2_file").get "filename" with
        | error e => rfl
        | ok d => rfl

/-- C3 (failing input): the summary section rendered for the report of
Scenario 1, where alice is a duplicate kept from B (removed from A) and her
final_merged entry has source B.  The page is displayed, and in it the
origin-A row alice_001.pdf carries the Kept badge and no Removed badge in
the ZIP File 1 tree and Kept in the ZIP File 1 table, while the origin-B row
alice_final.pdf is shown Kept as well: two rows of alice kept, none
removed. -/
theorem scenario1_page_shows_removed_side_kept :
    summarySection scenario1Summary none none =
      .ok { zip1Tree :=
              [{ folder := "root", isExpanded := true, totalCount := 2, keptCount := 2,
                 removedCount := 0,
                 files := [{ filename := "alice_001.pdf", username := "alice", kept := true,
                             removed := false, rowClass := "bg-green-50",
                             nameClass := "text-gray-700" },
                           { filename := "bob_002.pdf", username := "bob", kept := true,
                             removed := false, rowClass := "bg-green-50",
                             nameClass := "text-gray-700" }] }]
            zip2Tree :=
              [{ folder := "alice(12) Alice Smith", isExpanded := true, totalCount := 1,
                 keptCount := 1, removedCount := 0,
                 files := [{ filename := "alice_final.pdf", username := "alice",
                             kept := true, removed := false, rowClass := "bg-green-50",
                             nameClass := "text-gray-700" }] }]
            zip1Table :=
              [{ username := "alice", folder := "root", filename := "alice_001.pdf",
                 status := "Duplicate", action := "Kept" },
               { username := "bob", folder := "root", filename := "bob_002.pdf",
                 status := "Unique", action := "Kept" }]
            zip2Table :=
              [{ username := "alice", folder := "alice(12) Alice Smith",
                 filename := "alice_final.pdf", status := "Duplicate", action := "Kept" }]
            pairs :=
              some [{ username := "alice", zip1Folder := "root",
                      zip1Filename := "alice_001.pdf",
                      zip2Folder := "alice(12) Alice Smith",
                      zip2Filename := "alice_final.pdf", keptFrom := "B",
                      removedFrom := "A" }]
            finalMerged :=
              [{ username := "bob", source := "A", folder := "root",
                 filename := "bob_002.pdf" },
               { username := "alice", source := "B", folder := "alice(12) Alice Smith",
                 filename := "alice_final.pdf" }] } := by
  rfl

end CompareFile
